import Mathlib

/-!
# Verification of the Tavari voice-agent bridge (`src/server.js`)

This file shallowly embeds the parts of `server.js` that the specification
talks about:

* the two PCM16 resamplers `resample24kHzTo8kHz` and `resample8kHzTo24kHz`
  (byte-level, with `Buffer.allocUnsafe` modelled as a buffer of
  uninitialized `Option Nat` cells so that a cell that is never written
  stays `none`);
* the event-driven session machinery: the webhook handlers
  (`handleCallInitiated`, `handleCallAnswered`, `handleCallHangup`), the
  OpenAI realtime socket handlers (`session.updated`,
  `conversation.item.created`, `response.done`, audio deltas, close) and the
  Telnyx media-stream socket handlers (connection, message, close), together
  with `sendAudioToTelnyx`.

Buffers are lists of bytes (`Nat`, a valid buffer has all bytes < 256).
Call ids, call-control ids and websocket identities are `Nat`.
-/

/-! ## Byte-level PCM16 primitives (Node `Buffer` semantics) -/

/-- Interpret an unsigned 16-bit value as a signed one (two's complement),
as `Buffer.readInt16LE` does after combining the two bytes. -/
def toSigned16 (u : Nat) : Int :=
  if u < 32768 then (u : Int) else (u : Int) - 65536

/-- Byte of a buffer at an index (reads beyond the end give 0; the code
never performs such reads, which claim C10 establishes). -/
def byteAt (l : List Nat) (i : Nat) : Nat :=
  (l[i]?).getD 0

/-- `Buffer.readInt16LE`: little-endian signed 16-bit read at byte offset
`idx`. -/
def readInt16LE (buf : List Nat) (idx : Nat) : Int :=
  toSigned16 (byteAt buf idx + 256 * byteAt buf (idx + 1))

/-- The two little-endian bytes `Buffer.writeInt16LE` stores for a value in
the signed 16-bit range. -/
def int16Lo (v : Int) : Nat := (v % 65536).toNat % 256

/-- High byte stored by `Buffer.writeInt16LE`. -/
def int16Hi (v : Int) : Nat := (v % 65536).toNat / 256

/-- One `outputBuffer.writeInt16LE(val, off)` call recorded by a resampler
loop iteration: the byte offset written, the value, and whether the write
came from the defensive out-of-bounds fallback branch of the loop. -/
structure WriteEvent where
  off : Nat
  val : Int
  fallback : Bool
  deriving DecidableEq, Repr

/-- `Buffer.writeInt16LE` on the uninitialized output buffer: sets the two
bytes at `off`, `off+1` (a `List.set` beyond the end is a no-op; C10 shows
all writes are in bounds). -/
def writeInt16LEAt (buf : List (Option Nat)) (off : Nat) (v : Int) :
    List (Option Nat) :=
  (buf.set off (some (int16Lo v))).set (off + 1) (some (int16Hi v))

/-- Replay a list of recorded writes over a buffer. -/
def applyWrites (ws : List WriteEvent) (buf : List (Option Nat)) :
    List (Option Nat) :=
  ws.foldl (fun b w => writeInt16LEAt b w.off w.val) buf

/-! ## `resample24kHzTo8kHz` (decimation by 3), lines 17-53 of server.js -/

/-- One iteration of the loop of `resample24kHzTo8kHz` (lines 31-50): for
output sample `i` it writes at byte offset `i*2`; normally the value is the
input sample at byte offset `i*3*2`, and if that read would be out of
bounds the fallback branch (lines 37-43) re-reads the last complete sample
instead. -/
def downWrite (input : List Nat) (i : Nat) : WriteEvent :=
  let len := input.length
  let inputSampleIndex := i * 3 * 2
  if len ≤ inputSampleIndex + 1 then
    { off := i * 2, val := readInt16LE input ((len - 2) / 2 * 2),
      fallback := true }
  else
    { off := i * 2, val := readInt16LE input inputSampleIndex,
      fallback := false }

/-- All writes performed by the loop of `resample24kHzTo8kHz`. -/
def downsampleWrites (input : List Nat) : List WriteEvent :=
  (List.range (input.length / 2 / 3)).map (downWrite input)

/-- `resample24kHzTo8kHz` before the final read-out: the `allocUnsafe`
buffer of `outputSamples * 2` uninitialized cells after all loop writes. -/
def resample24kHzTo8kHzOpt (input : List Nat) : List (Option Nat) :=
  if input.length < 2 then []
  else
    applyWrites (downsampleWrites input)
      (List.replicate (input.length / 2 / 3 * 2) none)

/-- `resample24kHzTo8kHz`: the returned byte buffer.  A cell that were
never written would surface whatever `getD` supplies; claim C10 proves all
cells are written. -/
def resample24kHzTo8kHz (input : List Nat) : List Nat :=
  (resample24kHzTo8kHzOpt input).map (fun o => o.getD 0)

/-! ## `resample8kHzTo24kHz` (linear interpolation by 3), lines 60-119 -/

/-- Clamp to the signed 16-bit range, as lines 112 of server.js. -/
def clamp16 (v : Int) : Int := max (-32768) (min 32767 v)

/-- Round `a / 3` to the nearest integer.  Line 109 computes
`Math.round(sample1 + (sample2 - sample1) * fraction)` in binary floating
point with `fraction = i/3 - Math.floor(i/3)`.  For every reachable `i`
(Node buffers are far below 2^40 bytes) the float value is within 0.02 of
the exact rational `sample1 + (sample2-sample1)*(i%3)/3`, whose distance
from the nearest half-integer is at least 1/6, so `Math.round` returns
exactly the nearest integer to the exact rational; that nearest integer is
`sample1 + roundThird ((sample2-sample1)*(i%3))`.  `Int.ediv` is floor
division here because the divisor is positive. -/
def roundThird (a : Int) : Int := (2 * a + 3) / 6

/-- One iteration of the loop of `resample8kHzTo24kHz` (lines 74-116).
`none` marks an iteration that writes nothing (the `lastSampleIndex + 1 <
inputBuffer.length` test of line 84 failing in the hold-last-sample branch,
which would leave uninitialized bytes in the output); C10 shows this never
happens.  The `fallback := true` write is the out-of-bounds fallback branch
of lines 96-102.  `i % 3` stands for the fractional offset
`i/3 - Math.floor(i/3) = (i % 3)/3`. -/
def upWrite (input : List Nat) (i : Nat) : Option WriteEvent :=
  let len := input.length
  let inputSamples := len / 2
  let inputIndex := i / 3
  if inputSamples - 1 ≤ inputIndex then
    let lastSampleIndex := (inputSamples - 1) * 2
    if lastSampleIndex + 1 < len then
      some { off := i * 2, val := readInt16LE input lastSampleIndex,
             fallback := false }
    else none
  else
    let s1i := inputIndex * 2
    let s2i := (inputIndex + 1) * 2
    if len ≤ s1i + 1 ∨ len ≤ s2i + 1 then
      some { off := i * 2, val := readInt16LE input ((len - 2) / 2 * 2),
             fallback := true }
    else
      some { off := i * 2,
             val := clamp16 (readInt16LE input s1i +
               roundThird ((readInt16LE input s2i - readInt16LE input s1i)
                 * (i % 3))),
             fallback := false }

/-- All writes performed by the loop of `resample8kHzTo24kHz`. -/
def upsampleWrites (input : List Nat) : List (Option WriteEvent) :=
  (List.range (input.length / 2 * 3)).map (upWrite input)

/-- `resample8kHzTo24kHz` before the final read-out. -/
def resample8kHzTo24kHzOpt (input : List Nat) : List (Option Nat) :=
  if input.length < 2 then []
  else
    applyWrites (upsampleWrites input).reduceOption
      (List.replicate (input.length / 2 * 3 * 2) none)

/-- `resample8kHzTo24kHz`: the returned byte buffer. -/
def resample8kHzTo24kHz (input : List Nat) : List Nat :=
  (resample8kHzTo24kHzOpt input).map (fun o => o.getD 0)

/-- A buffer is made of bytes. -/
def ValidBuf (l : List Nat) : Prop := ∀ b ∈ l, b < 256

instance : DecidablePred ValidBuf := fun l =>
  inferInstanceAs (Decidable (∀ b ∈ l, b < 256))

example : resample24kHzTo8kHz [1, 0, 0, 0, 0, 0] = [1, 0] := by decide

example : resample24kHzTo8kHz [1, 0, 2, 0, 3, 0, 4, 0] = [1, 0] := by decide

example : resample24kHzTo8kHz [7] = [] := by decide

example : resample8kHzTo24kHz [10, 0, 16, 0] =
    [10, 0, 12, 0, 14, 0, 16, 0, 16, 0, 16, 0] := by decide

example : resample8kHzTo24kHz [5] = [] := by decide

/-! ## Generic facts about replaying the loop writes -/

theorem applyWrites_length (ws : List WriteEvent) (buf : List (Option Nat)) :
    (applyWrites ws buf).length = buf.length := by
  induction ws generalizing buf with
  | nil => rfl
  | cons w ws ih =>
    show (applyWrites ws (writeInt16LEAt buf w.off w.val)).length = _
    rw [ih]
    simp [writeInt16LEAt]

theorem applyWrites_append (ws1 ws2 : List WriteEvent)
    (buf : List (Option Nat)) :
    applyWrites (ws1 ++ ws2) buf = applyWrites ws2 (applyWrites ws1 buf) :=
  List.foldl_append _ _ _ _

/-- Replaying writes recorded by a loop whose iteration `i` writes sample
value `(g i).val` at byte offset `i * 2`: every output sample position
holds the two bytes of the value its iteration wrote (each output byte is
written by exactly one iteration, so no later iteration disturbs it). -/
theorem applyWrites_range_get (g : Nat → WriteEvent)
    (hoff : ∀ i, (g i).off = i * 2) (n : Nat) :
    ∀ (buf : List (Option Nat)), n * 2 ≤ buf.length → ∀ j, j < n →
      (applyWrites ((List.range n).map g) buf)[j * 2]?
          = some (some (int16Lo (g j).val)) ∧
      (applyWrites ((List.range n).map g) buf)[j * 2 + 1]?
          = some (some (int16Hi (g j).val)) := by
  induction n with
  | zero => intro buf _ j hj; omega
  | succ n ih =>
    intro buf hlen j hj
    rw [List.range_succ, List.map_append, applyWrites_append]
    have hXlen : (applyWrites ((List.range n).map g) buf).length = buf.length :=
      applyWrites_length _ _
    set X := applyWrites ((List.range n).map g) buf with hX
    have hstep : applyWrites (List.map g [n]) X
        = writeInt16LEAt X (n * 2) (g n).val := by
      simp [applyWrites, hoff n]
    rw [hstep]
    unfold writeInt16LEAt
    rcases Nat.lt_or_ge j n with hjn | hjn
    · have h1 : n * 2 + 1 ≠ j * 2 := by omega
      have h2 : n * 2 ≠ j * 2 := by omega
      have h3 : n * 2 + 1 ≠ j * 2 + 1 := by omega
      have h4 : n * 2 ≠ j * 2 + 1 := by omega
      rw [List.getElem?_set_ne h1, List.getElem?_set_ne h2,
          List.getElem?_set_ne h3, List.getElem?_set_ne h4]
      exact ih buf (by omega) j hjn
    · have hje : j = n := by omega
      subst hje
      constructor
      · rw [List.getElem?_set_ne (by omega : j * 2 + 1 ≠ j * 2)]
        exact List.getElem?_set_self (by simp [hXlen]; omega)
      · exact List.getElem?_set_self (by simp [hXlen]; omega)

/-- Every cell of the replayed output buffer has been written. -/
theorem applyWrites_range_isSome (g : Nat → WriteEvent)
    (hoff : ∀ i, (g i).off = i * 2) (n : Nat) (buf : List (Option Nat))
    (hlen : buf.length = n * 2) :
    ∀ o ∈ applyWrites ((List.range n).map g) buf, o.isSome := by
  intro o ho
  obtain ⟨k, hk⟩ := List.mem_iff_getElem?.mp ho
  have hklen : k < n * 2 := by
    by_contra hge
    rw [List.getElem?_eq_none (by rw [applyWrites_length, hlen]; omega)] at hk
    exact Option.noConfusion hk
  have hcover := applyWrites_range_get g hoff n buf (by omega) (k / 2)
    (by omega)
  rcases Nat.lt_or_ge (k % 2) 1 with hpar | hpar
  · have hke : k = k / 2 * 2 := by omega
    rw [hke, hcover.1] at hk
    cases hk; simp
  · have hke : k = k / 2 * 2 + 1 := by omega
    rw [hke, hcover.2] at hk
    cases hk; simp

/-! ## PCM16 round-trip and range facts -/

theorem toSigned16_int16 (v : Int) (h1 : -32768 ≤ v) (h2 : v ≤ 32767) :
    toSigned16 (int16Lo v + 256 * int16Hi v) = v := by
  unfold toSigned16 int16Lo int16Hi
  rw [Nat.mod_add_div]
  split <;> omega

theorem byteAt_lt (l : List Nat) (hv : ValidBuf l) (i : Nat) :
    byteAt l i < 256 := by
  unfold byteAt
  cases h : l[i]? with
  | none => simp
  | some b =>
    have : b ∈ l := List.mem_iff_getElem?.mpr ⟨i, h⟩
    simpa using hv b this

theorem readInt16LE_range (l : List Nat) (hv : ValidBuf l) (i : Nat) :
    -32768 ≤ readInt16LE l i ∧ readInt16LE l i ≤ 32767 := by
  have h0 := byteAt_lt l hv i
  have h1 := byteAt_lt l hv (i + 1)
  unfold readInt16LE toSigned16
  split <;> omega

theorem clamp16_range (v : Int) :
    -32768 ≤ clamp16 v ∧ clamp16 v ≤ 32767 := by
  unfold clamp16
  omega

/-- Reading a sample back out of the final (`Option`-stripped) buffer. -/
theorem readInt16LE_of_opt (res : List (Option Nat)) (j : Nat) (v : Int)
    (h0 : res[j * 2]? = some (some (int16Lo v)))
    (h1 : res[j * 2 + 1]? = some (some (int16Hi v)))
    (hv1 : -32768 ≤ v) (hv2 : v ≤ 32767) :
    readInt16LE (res.map (fun o => o.getD 0)) (j * 2) = v := by
  unfold readInt16LE byteAt
  rw [List.getElem?_map, h0, List.getElem?_map, h1]
  simpa using toSigned16_int16 v hv1 hv2

/-! ## Evaluating the loop branches on in-range iterations -/

theorem downWrite_off (input : List Nat) (i : Nat) :
    (downWrite input i).off = i * 2 := by
  simp only [downWrite]
  split <;> rfl

/-- For every iteration the loop actually runs, the out-of-bounds test of
line 37 is false: the write decimates, taking input sample `3*i`. -/
theorem downWrite_eval (input : List Nat) (i : Nat)
    (hi : i < input.length / 2 / 3) :
    downWrite input i =
      { off := i * 2, val := readInt16LE input (i * 3 * 2),
        fallback := false } := by
  simp only [downWrite]
  rw [if_neg (by omega)]

/-- The value `upWrite` always ends up writing for an in-range iteration:
hold the last sample in the tail region, interpolate elsewhere. -/
def upVal (input : List Nat) (i : Nat) : WriteEvent :=
  let K := input.length / 2
  if K - 1 ≤ i / 3 then
    { off := i * 2, val := readInt16LE input ((K - 1) * 2),
      fallback := false }
  else
    { off := i * 2,
      val := clamp16 (readInt16LE input (i / 3 * 2) +
        roundThird ((readInt16LE input ((i / 3 + 1) * 2)
          - readInt16LE input (i / 3 * 2)) * (i % 3))),
      fallback := false }

theorem upVal_off (input : List Nat) (i : Nat) :
    (upVal input i).off = i * 2 := by
  simp only [upVal]
  split <;> rfl

/-- For every iteration the upsampling loop actually runs, the skip branch
(line 84 test failing) and the out-of-bounds fallback (lines 96-102) are
both unreachable: the iteration writes `upVal`. -/
theorem upWrite_eval (input : List Nat) (i : Nat)
    (hi : i < input.length / 2 * 3) :
    upWrite input i = some (upVal input i) := by
  simp only [upWrite, upVal]
  by_cases h : input.length / 2 - 1 ≤ i / 3
  · rw [if_pos h, if_pos (by omega), if_pos h]
  · rw [if_neg h, if_neg (by omega), if_neg h]

theorem upsampleWrites_reduce (input : List Nat) :
    (upsampleWrites input).reduceOption
      = (List.range (input.length / 2 * 3)).map (upVal input) := by
  unfold upsampleWrites
  generalize hn : input.length / 2 * 3 = n
  have : ∀ i < n, upWrite input i = some (upVal input i) := by
    intro i hi
    exact upWrite_eval input i (by omega)
  clear hn
  induction n with
  | zero => rfl
  | succ n ih =>
    rw [List.range_succ, List.map_append, List.map_append,
        List.reduceOption_append, ih (fun i hi => this i (by omega))]
    simp [this n (by omega), List.reduceOption]

/-! ## Sample-level characterisation of the downsampler -/

theorem downsample_len (input : List Nat) :
    (resample24kHzTo8kHz input).length = input.length / 2 / 3 * 2 := by
  unfold resample24kHzTo8kHz resample24kHzTo8kHzOpt
  split
  · simp; omega
  · rw [List.length_map, applyWrites_length, List.length_replicate]

theorem downsample_sample (input : List Nat) (hv : ValidBuf input) (i : Nat)
    (hi : i < input.length / 2 / 3) :
    readInt16LE (resample24kHzTo8kHz input) (i * 2)
      = readInt16LE input (i * 3 * 2) := by
  have hlen2 : ¬ input.length < 2 := by omega
  unfold resample24kHzTo8kHz resample24kHzTo8kHzOpt downsampleWrites
  rw [if_neg hlen2]
  have hget := applyWrites_range_get (downWrite input) (downWrite_off input)
    (input.length / 2 / 3) (List.replicate (input.length / 2 / 3 * 2) none)
    (by simp) i hi
  have hval := downWrite_eval input i hi
  have hr := readInt16LE_range input hv (i * 3 * 2)
  exact readInt16LE_of_opt _ i _ (by rw [hget.1, hval])
    (by rw [hget.2, hval]) hr.1 hr.2

/-- C6: `resample24kHzTo8kHz` returns exactly `(len/2)/3` complete samples,
sample `i` of the output being input sample `3*i` (pure decimation, the
trailing partial group dropped by the floor), and inputs of fewer than 2
bytes give the empty buffer. -/
theorem downsample_spec (input : List Nat) (hv : ValidBuf input) :
    (resample24kHzTo8kHz input).length = input.length / 2 / 3 * 2 ∧
    (∀ i, i < input.length / 2 / 3 →
      readInt16LE (resample24kHzTo8kHz input) (i * 2)
        = readInt16LE input (3 * i * 2)) ∧
    (input.length < 2 → resample24kHzTo8kHz input = []) := by
  refine ⟨downsample_len input, ?_, ?_⟩
  · intro i hi
    have := downsample_sample input hv i hi
    rwa [show i * 3 = 3 * i by ring] at this
  · intro h
    unfold resample24kHzTo8kHz resample24kHzTo8kHzOpt
    rw [if_pos h]
    rfl

theorem downsample_spec_witness :
    ValidBuf [1, 0, 2, 0, 3, 0, 4, 0, 5, 0, 6, 0, 7, 1] ∧
    ((resample24kHzTo8kHz [1, 0, 2, 0, 3, 0, 4, 0, 5, 0, 6, 0, 7, 1]).length
        = [1, 0, 2, 0, 3, 0, 4, 0, 5, 0, 6, 0, 7, 1].length / 2 / 3 * 2 ∧
     (∀ i, i < [1, 0, 2, 0, 3, 0, 4, 0, 5, 0, 6, 0, 7, 1].length / 2 / 3 →
       readInt16LE (resample24kHzTo8kHz [1, 0, 2, 0, 3, 0, 4, 0, 5, 0, 6, 0, 7, 1]) (i * 2)
         = readInt16LE [1, 0, 2, 0, 3, 0, 4, 0, 5, 0, 6, 0, 7, 1] (3 * i * 2)) ∧
     ([1, 0, 2, 0, 3, 0, 4, 0, 5, 0, 6, 0, 7, 1].length < 2 →
       resample24kHzTo8kHz [1, 0, 2, 0, 3, 0, 4, 0, 5, 0, 6, 0, 7, 1] = [])) :=
  ⟨by decide, downsample_spec [1, 0, 2, 0, 3, 0, 4, 0, 5, 0, 6, 0, 7, 1] (by decide)⟩

/-! ## Sample-level characterisation of the upsampler -/

theorem upsample_len (input : List Nat) :
    (resample8kHzTo24kHz input).length = input.length / 2 * 3 * 2 := by
  unfold resample8kHzTo24kHz resample8kHzTo24kHzOpt
  split
  · simp; omega
  · rw [List.length_map, applyWrites_length, List.length_replicate]

theorem upVal_range (input : List Nat) (hv : ValidBuf input) (i : Nat) :
    -32768 ≤ (upVal input i).val ∧ (upVal input i).val ≤ 32767 := by
  simp only [upVal]
  split
  · exact readInt16LE_range input hv _
  · exact clamp16_range _

theorem upsample_sample (input : List Nat) (hv : ValidBuf input) (p : Nat)
    (hp : p < input.length / 2 * 3) :
    readInt16LE (resample8kHzTo24kHz input) (p * 2) = (upVal input p).val := by
  have hlen2 : ¬ input.length < 2 := by omega
  unfold resample8kHzTo24kHz resample8kHzTo24kHzOpt
  rw [if_neg hlen2, upsampleWrites_reduce]
  have hget := applyWrites_range_get (upVal input) (upVal_off input)
    (input.length / 2 * 3) (List.replicate (input.length / 2 * 3 * 2) none)
    (by simp) p hp
  have hr := upVal_range input hv p
  exact readInt16LE_of_opt _ p _ hget.1 hget.2 hr.1 hr.2

/-- The 4-byte little-endian buffer holding the two samples `S0, S1`. -/
def mkBuf2 (S0 S1 : Int) : List Nat :=
  [int16Lo S0, int16Hi S0, int16Lo S1, int16Hi S1]

theorem int16Hi_lt (v : Int) : int16Hi v < 256 := by
  unfold int16Hi
  omega

theorem int16Lo_lt (v : Int) : int16Lo v < 256 := by
  unfold int16Lo
  omega

theorem mkBuf2_valid (S0 S1 : Int) : ValidBuf (mkBuf2 S0 S1) := by
  intro b hb
  simp [mkBuf2] at hb
  rcases hb with h | h | h | h <;> subst h
  · exact int16Lo_lt _
  · exact int16Hi_lt _
  · exact int16Lo_lt _
  · exact int16Hi_lt _

theorem mkBuf2_read0 (S0 S1 : Int) (h1 : -32768 ≤ S0) (h2 : S0 ≤ 32767) :
    readInt16LE (mkBuf2 S0 S1) 0 = S0 := by
  have := toSigned16_int16 S0 h1 h2
  unfold readInt16LE byteAt mkBuf2
  simpa using this

theorem mkBuf2_read2 (S0 S1 : Int) (h1 : -32768 ≤ S1) (h2 : S1 ≤ 32767) :
    readInt16LE (mkBuf2 S0 S1) 2 = S1 := by
  have := toSigned16_int16 S1 h1 h2
  unfold readInt16LE byteAt mkBuf2
  simpa using this

/-- C7: `resample8kHzTo24kHz` returns `3*K` complete samples for `K` input
samples; output position `p` is the linear interpolation of input samples
`p/3` and `p/3 + 1` weighted by the fractional offset `(p mod 3)/3`,
rounded to nearest and clamped to the signed 16-bit range, with the last
input sample held for positions in the final (incomplete) interval; fewer
than 2 input bytes give the empty buffer; and on a two-sample buffer
`[S0, S1]` the six outputs start at `S0`, reach `S1` at position 3, with
positions 1 and 2 monotonic interpolations between the two. -/
theorem upsample_spec (input : List Nat) (hv : ValidBuf input) :
    (input.length < 2 → resample8kHzTo24kHz input = []) ∧
    (resample8kHzTo24kHz input).length = input.length / 2 * 3 * 2 ∧
    (∀ p, p < input.length / 2 * 3 →
      readInt16LE (resample8kHzTo24kHz input) (p * 2)
        = if input.length / 2 - 1 ≤ p / 3 then
            readInt16LE input ((input.length / 2 - 1) * 2)
          else
            clamp16 (readInt16LE input (p / 3 * 2) +
              roundThird ((readInt16LE input ((p / 3 + 1) * 2)
                - readInt16LE input (p / 3 * 2)) * ((p : Int) % 3)))) ∧
    (∀ S0 S1 : Int, -32768 ≤ S0 → S0 ≤ 32767 → -32768 ≤ S1 → S1 ≤ 32767 →
      (resample8kHzTo24kHz (mkBuf2 S0 S1)).length = 6 * 2 ∧
      readInt16LE (resample8kHzTo24kHz (mkBuf2 S0 S1)) (0 * 2) = S0 ∧
      readInt16LE (resample8kHzTo24kHz (mkBuf2 S0 S1)) (3 * 2) = S1 ∧
      (S0 ≤ S1 →
        S0 ≤ readInt16LE (resample8kHzTo24kHz (mkBuf2 S0 S1)) (1 * 2) ∧
        readInt16LE (resample8kHzTo24kHz (mkBuf2 S0 S1)) (1 * 2)
          ≤ readInt16LE (resample8kHzTo24kHz (mkBuf2 S0 S1)) (2 * 2) ∧
        readInt16LE (resample8kHzTo24kHz (mkBuf2 S0 S1)) (2 * 2) ≤ S1) ∧
      (S1 ≤ S0 →
        S1 ≤ readInt16LE (resample8kHzTo24kHz (mkBuf2 S0 S1)) (2 * 2) ∧
        readInt16LE (resample8kHzTo24kHz (mkBuf2 S0 S1)) (2 * 2)
          ≤ readInt16LE (resample8kHzTo24kHz (mkBuf2 S0 S1)) (1 * 2) ∧
        readInt16LE (resample8kHzTo24kHz (mkBuf2 S0 S1)) (1 * 2) ≤ S0)) := by
  refine ⟨?_, upsample_len input, ?_, ?_⟩
  · intro h
    unfold resample8kHzTo24kHz resample8kHzTo24kHzOpt
    rw [if_pos h]
    rfl
  · intro p hp
    rw [upsample_sample input hv p hp]
    by_cases h : input.length / 2 - 1 ≤ p / 3
    · simp [upVal, h]
    · simp [upVal, h]
  · intro S0 S1 h1 h2 h3 h4
    have hvb := mkBuf2_valid S0 S1
    have hlen : (mkBuf2 S0 S1).length = 4 := rfl
    have s0 : readInt16LE (resample8kHzTo24kHz (mkBuf2 S0 S1)) (0 * 2) = S0 := by
      rw [upsample_sample _ hvb 0 (by norm_num [hlen])]
      simp only [upVal]
      norm_num [hlen]
      rw [mkBuf2_read0 S0 S1 h1 h2]
      unfold roundThird clamp16
      omega
    have s3 : readInt16LE (resample8kHzTo24kHz (mkBuf2 S0 S1)) (3 * 2) = S1 := by
      rw [upsample_sample _ hvb 3 (by norm_num [hlen])]
      simp only [upVal]
      norm_num [hlen]
      exact mkBuf2_read2 S0 S1 h3 h4
    have s1 : readInt16LE (resample8kHzTo24kHz (mkBuf2 S0 S1)) (1 * 2)
        = clamp16 (S0 + roundThird (S1 - S0)) := by
      rw [upsample_sample _ hvb 1 (by norm_num [hlen])]
      simp only [upVal]
      norm_num [hlen]
      rw [mkBuf2_read0 S0 S1 h1 h2, mkBuf2_read2 S0 S1 h3 h4]
    have s2 : readInt16LE (resample8kHzTo24kHz (mkBuf2 S0 S1)) (2 * 2)
        = clamp16 (S0 + roundThird ((S1 - S0) * 2)) := by
      rw [upsample_sample _ hvb 2 (by norm_num [hlen])]
      simp only [upVal]
      norm_num [hlen]
      rw [mkBuf2_read0 S0 S1 h1 h2, mkBuf2_read2 S0 S1 h3 h4]
    refine ⟨?_, s0, s3, ?_, ?_⟩
    · rw [upsample_len, hlen]
    · intro hle
      rw [s1, s2]
      unfold clamp16 roundThird
      omega
    · intro hle
      rw [s1, s2]
      unfold clamp16 roundThird
      omega

theorem upsample_spec_witness :
    ValidBuf [10, 0, 16, 0] ∧
    (resample8kHzTo24kHz [10, 0, 16, 0]).length
      = [10, 0, 16, 0].length / 2 * 3 * 2 :=
  ⟨by decide, (upsample_spec [10, 0, 16, 0] (by decide)).2.1⟩

/-! ## Totality and full initialization of the resamplers (C10) -/

/-- Does a 2-byte write at `w.off` touch byte `j`? -/
def touches (j : Nat) (w : WriteEvent) : Bool :=
  (w.off == j) || (w.off + 1 == j)

theorem range_touch_once (g : Nat → WriteEvent)
    (hoff : ∀ i, (g i).off = i * 2) (n : Nat) :
    ∀ j, j < n * 2 →
      (((List.range n).map g).filter (touches j)).length = 1 := by
  induction n with
  | zero => intro j hj; omega
  | succ n ih =>
    intro j hj
    rw [List.range_succ, List.map_append, List.filter_append,
        List.length_append]
    rcases Nat.lt_or_ge j (n * 2) with hlt | hge
    · rw [ih j hlt]
      have hfalse : touches j (g n) = false := by
        simp only [touches, hoff n, Bool.or_eq_false_iff, beq_eq_false_iff_ne]
        omega
      simp [hfalse]
    · have hnil : ((List.range n).map g).filter (touches j) = [] := by
        apply List.filter_eq_nil_iff.mpr
        intro w hw
        obtain ⟨i, hi, hwi⟩ := List.mem_map.mp hw
        have hi' : i < n := List.mem_range.mp hi
        subst hwi
        simp only [touches, hoff i, Bool.or_eq_true, beq_iff_eq, not_or]
        omega
      have htrue : touches j (g n) = true := by
        simp only [touches, hoff n, Bool.or_eq_true, beq_iff_eq]
        omega
      simp [hnil, htrue]

theorem byteAt_take (l : List Nat) (m k : Nat) (h : k < m) :
    byteAt (l.take m) k = byteAt l k := by
  unfold byteAt
  rw [List.getElem?_take]
  simp [h]

theorem readInt16LE_take (l : List Nat) (m k : Nat) (h : k + 1 < m) :
    readInt16LE (l.take m) k = readInt16LE l k := by
  unfold readInt16LE
  rw [byteAt_take l m k (by omega), byteAt_take l m (k + 1) h]

theorem upVal_fallback (input : List Nat) (i : Nat) :
    (upVal input i).fallback = false := by
  simp only [upVal]
  split <;> rfl

theorem downWrite_take (input : List Nat) (i : Nat)
    (hi : i < input.length / 2 / 3) :
    downWrite (input.take (input.length / 2 * 2)) i = downWrite input i := by
  have hm : (input.take (input.length / 2 * 2)).length
      = input.length / 2 * 2 := by
    rw [List.length_take]; omega
  rw [downWrite_eval input i hi, downWrite_eval _ i (by rw [hm]; omega)]
  rw [readInt16LE_take input (input.length / 2 * 2) (i * 3 * 2) (by omega)]

theorem upVal_take (input : List Nat) (i : Nat)
    (hi : i < input.length / 2 * 3) :
    upVal (input.take (input.length / 2 * 2)) i = upVal input i := by
  have hm : (input.take (input.length / 2 * 2)).length
      = input.length / 2 * 2 := by
    rw [List.length_take]; omega
  have hK : (input.take (input.length / 2 * 2)).length / 2
      = input.length / 2 := by rw [hm]; omega
  simp only [upVal, hK]
  by_cases h : input.length / 2 - 1 ≤ i / 3
  · rw [if_pos h, if_pos h,
      readInt16LE_take input (input.length / 2 * 2)
        ((input.length / 2 - 1) * 2) (by omega)]
  · rw [if_neg h, if_neg h,
      readInt16LE_take input (input.length / 2 * 2) (i / 3 * 2) (by omega),
      readInt16LE_take input (input.length / 2 * 2) ((i / 3 + 1) * 2)
        (by omega)]

theorem downsample_take (input : List Nat) :
    resample24kHzTo8kHz input
      = resample24kHzTo8kHz (input.take (input.length / 2 * 2)) := by
  have hm : (input.take (input.length / 2 * 2)).length
      = input.length / 2 * 2 := by
    rw [List.length_take]; omega
  unfold resample24kHzTo8kHz resample24kHzTo8kHzOpt downsampleWrites
  rw [hm]
  by_cases h2 : input.length < 2
  · rw [if_pos h2, if_pos (by omega)]
  · rw [if_neg h2, if_neg (by omega)]
    have he : input.length / 2 * 2 / 2 / 3 = input.length / 2 / 3 := by omega
    rw [he]
    have hmap : (List.range (input.length / 2 / 3)).map
          (downWrite (input.take (input.length / 2 * 2)))
        = (List.range (input.length / 2 / 3)).map (downWrite input) := by
      apply List.map_congr_left
      intro i hi
      exact downWrite_take input i (List.mem_range.mp hi)
    rw [hmap]

theorem upsample_take (input : List Nat) :
    resample8kHzTo24kHz input
      = resample8kHzTo24kHz (input.take (input.length / 2 * 2)) := by
  have hm : (input.take (input.length / 2 * 2)).length
      = input.length / 2 * 2 := by
    rw [List.length_take]; omega
  unfold resample8kHzTo24kHz resample8kHzTo24kHzOpt
  rw [upsampleWrites_reduce, upsampleWrites_reduce, hm]
  by_cases h2 : input.length < 2
  · rw [if_pos h2, if_pos (by omega)]
  · rw [if_neg h2, if_neg (by omega)]
    have he : input.length / 2 * 2 / 2 = input.length / 2 := by omega
    rw [he]
    have hmap : (List.range (input.length / 2 * 3)).map
          (upVal (input.take (input.length / 2 * 2)))
        = (List.range (input.length / 2 * 3)).map (upVal input) := by
      apply List.map_congr_left
      intro i hi
      exact upVal_take input i (List.mem_range.mp hi)
    rw [hmap]

/-- C10: both resamplers are total and fully initialize their
`allocUnsafe` output: the out-of-bounds fallback branches are unreachable
(no recorded write has `fallback = true`), the upsampler's skip branch
never fires (every iteration records a write), each output byte is written
by exactly one loop iteration, every cell of the uninitialized output
buffer ends up written, both outputs consist of whole 2-byte samples, and
a trailing odd input byte is ignored. -/
theorem resampler_total_spec (input : List Nat) :
    (downsampleWrites input).all (fun w => !w.fallback) = true ∧
    (∀ ow ∈ upsampleWrites input, ∃ w, ow = some w ∧ w.fallback = false) ∧
    (∀ j, j < input.length / 2 / 3 * 2 →
      ((downsampleWrites input).filter (touches j)).length = 1) ∧
    (∀ j, j < input.length / 2 * 3 * 2 →
      ((upsampleWrites input).reduceOption.filter (touches j)).length = 1) ∧
    (∀ o ∈ resample24kHzTo8kHzOpt input, o.isSome = true) ∧
    (∀ o ∈ resample8kHzTo24kHzOpt input, o.isSome = true) ∧
    (resample24kHzTo8kHz input).length = input.length / 2 / 3 * 2 ∧
    (resample8kHzTo24kHz input).length = input.length / 2 * 3 * 2 ∧
    resample24kHzTo8kHz input
      = resample24kHzTo8kHz (input.take (input.length / 2 * 2)) ∧
    resample8kHzTo24kHz input
      = resample8kHzTo24kHz (input.take (input.length / 2 * 2)) := by
  refine ⟨?_, ?_, ?_, ?_, ?_, ?_, downsample_len input, upsample_len input,
    downsample_take input, upsample_take input⟩
  · rw [List.all_eq_true]
    intro w hw
    obtain ⟨i, hi, hwi⟩ := List.mem_map.mp hw
    rw [← hwi, downWrite_eval input i (List.mem_range.mp hi)]
    rfl
  · intro ow how
    obtain ⟨i, hi, hwi⟩ := List.mem_map.mp how
    refine ⟨upVal input i, ?_, upVal_fallback input i⟩
    rw [← hwi, upWrite_eval input i (List.mem_range.mp hi)]
  · intro j hj
    exact range_touch_once (downWrite input) (downWrite_off input) _ j hj
  · intro j hj
    rw [upsampleWrites_reduce]
    exact range_touch_once (upVal input) (upVal_off input) _ j hj
  · unfold resample24kHzTo8kHzOpt downsampleWrites
    split
    · intro o ho; cases ho
    · exact applyWrites_range_isSome (downWrite input) (downWrite_off input)
        _ _ (by simp)
  · unfold resample8kHzTo24kHzOpt
    split
    · intro o ho; cases ho
    · rw [upsampleWrites_reduce]
      exact applyWrites_range_isSome (upVal input) (upVal_off input)
        _ _ (by simp)

theorem resampler_total_spec_witness :
    (1 < [1, 2, 3, 4, 5, 6, 7].length / 2 / 3 * 2 ∧
      ((downsampleWrites [1, 2, 3, 4, 5, 6, 7]).filter (touches 1)).length
        = 1) ∧
    resample8kHzTo24kHz [1, 2, 3, 4, 5, 6, 7]
      = resample8kHzTo24kHz
          ([1, 2, 3, 4, 5, 6, 7].take ([1, 2, 3, 4, 5, 6, 7].length / 2 * 2)) :=
  ⟨⟨by decide, (resampler_total_spec [1, 2, 3, 4, 5, 6, 7]).2.2.1 1 (by decide)⟩,
   (resampler_total_spec [1, 2, 3, 4, 5, 6, 7]).2.2.2.2.2.2.2.2.2⟩

/-! ## The session machinery of server.js

The server is single-process and event-driven; every state change happens
inside one of the webhook or socket handlers.  We model it as a step
function over the global state (the `sessions` map of line 156, the
`wsCallMap` of line 661, plus which sockets are currently OPEN and the
counter supplying fresh OpenAI socket identities), consuming one inbound
event at a time and emitting the externally visible actions (HTTP
call-control requests and socket sends). -/

/-- JS `Map.get`. -/
def alistGet {α : Type} (m : List (Nat × α)) (k : Nat) : Option α :=
  match m with
  | [] => none
  | p :: m => if p.1 = k then some p.2 else alistGet m k

/-- JS `Map.set`: replaces in place, inserts at the end (JS `Map` preserves
insertion order, which the fallback scan of lines 728-735 iterates in). -/
def alistSet {α : Type} (m : List (Nat × α)) (k : Nat) (v : α) :
    List (Nat × α) :=
  match m with
  | [] => [(k, v)]
  | p :: m => if p.1 = k then (k, v) :: m else p :: alistSet m k v

/-- JS `Map.delete`. -/
def alistDelete {α : Type} (m : List (Nat × α)) (k : Nat) :
    List (Nat × α) :=
  match m with
  | [] => []
  | p :: m => if p.1 = k then alistDelete m k else p :: alistDelete m k

/-- The per-call session object created at lines 366-375. -/
structure Session where
  openaiWsId : Nat
  callControlId : Nat
  sessionReady : Bool
  telnyxWs : Option Nat
  pendingMediaStart : Bool
  pendingCallControlId : Option Nat
  hasActiveResponse : Bool
  audioQueue : List (List Nat)
  deriving DecidableEq, Repr

/-- Role carried by a `conversation.item.created` event's item. -/
inductive Role
  | user
  | assistant
  | system
  deriving DecidableEq, Repr

/-- JSON control messages the server sends on the OpenAI socket. -/
inductive AIMsg
  | sessionUpdate
  | itemCreateGreeting
  | responseCreate
  | audioAppend (bytes : List Nat)
  deriving DecidableEq, Repr

/-- Externally visible actions of the server.  There is deliberately no
"close the Telnyx socket" action: no code path in server.js ever closes
`session.telnyxWs` (only `session.openaiWs.close()` is ever called). -/
inductive Act
  | answerCall (ctrl : Nat)
  | startMediaStream (ctrl : Nat)
  | aiSend (cid : Nat) (msg : AIMsg)
  | telnyxSend (wsId : Nat) (payload : List Nat)
  | closeOpenAI (cid : Nat)
  deriving DecidableEq, Repr

/-- Inbound events: Telnyx webhooks (`call.initiated`, `call.answered`,
`call.hangup`/`call.bridged`), OpenAI socket events, and Telnyx
media-stream socket events.  `webhookHangup` covers both `call.hangup` and
`call.bridged` (lines 181-184 route both to `handleCallHangup`). -/
inductive Event
  | webhookInitiated (cid ctrl : Nat)
  | webhookAnswered (cid ctrl : Nat)
  | webhookHangup (cid : Nat)
  | aiOpened (cid wsId : Nat)
  | aiSessionUpdated (cid : Nat)
  | aiItemCreated (cid : Nat) (role : Role)
  | aiResponseDone (cid : Nat)
  | aiAudioDelta (cid : Nat) (bytes : List Nat)
  | aiClosed (cid wsId : Nat)
  | telnyxConnect (wsId : Nat) (urlCid : Option Nat)
  | telnyxMessage (wsId : Nat) (frame : List Nat)
  | telnyxClose (wsId : Nat)
  deriving DecidableEq, Repr

/-- Global mutable state of the server process. -/
structure ServerState where
  sessions : List (Nat × Session)
  wsCallMap : List (Nat × Option Nat)
  openWs : List Nat
  aiWsOpen : List Nat
  nextWs : Nat
  deriving DecidableEq, Repr

def initState : ServerState := ⟨[], [], [], [], 0⟩

/-- `sendAudioToTelnyx` (lines 593-650): if the session's Telnyx socket is
attached and OPEN, send the new frame first and then flush the queued
frames in arrival order; otherwise append the frame to `audioQueue`. -/
def sendAudioToTelnyx (st : ServerState) (cid : Nat) (buf : List Nat) :
    ServerState × List Act :=
  match alistGet st.sessions cid with
  | none => (st, [])
  | some s =>
    if buf.length = 0 then (st, [])
    else
      match s.telnyxWs with
      | some w =>
        if w ∈ st.openWs then
          let s2 := { s with audioQueue := ([] : List (List Nat)) }
          ({ st with sessions := alistSet st.sessions cid s2 },
           Act.telnyxSend w buf :: s.audioQueue.map (Act.telnyxSend w))
        else
          let s2 := { s with audioQueue := s.audioQueue ++ [buf] }
          ({ st with sessions := alistSet st.sessions cid s2 }, [])
      | none =>
        let s2 := { s with audioQueue := s.audioQueue ++ [buf] }
        ({ st with sessions := alistSet st.sessions cid s2 }, [])

/-- Lines 766-800 of the media-socket message handler: refetch the session,
require `openaiWs` (always set), drop the frame if `sessionReady` is still
false, otherwise upsample and forward to OpenAI when that socket is OPEN. -/
def forwardInbound (st : ServerState) (cid : Nat) (frame : List Nat) :
    ServerState × List Act :=
  match alistGet st.sessions cid with
  | none => (st, [])
  | some s =>
    if s.sessionReady = false then (st, [])
    else
      let up := resample8kHzTo24kHz frame
      if up.length = 0 then (st, [])
      else if s.openaiWsId ∈ st.aiWsOpen then
        (st, [Act.aiSend cid (AIMsg.audioAppend up)])
      else (st, [])

/-- One handler activation.  Each arm is the body of the corresponding
handler in server.js (line references in the arms). -/
def step (st : ServerState) (ev : Event) : ServerState × List Act :=
  match ev with
  | .webhookInitiated cid ctrl =>
    -- handleCallInitiated (205-220) + session creation (366-375)
    ({ st with
        sessions := alistSet st.sessions cid
          { openaiWsId := st.nextWs, callControlId := ctrl,
            sessionReady := false, telnyxWs := none,
            pendingMediaStart := false, pendingCallControlId := none,
            hasActiveResponse := false, audioQueue := [] },
        nextWs := st.nextWs + 1 },
     [Act.answerCall ctrl])
  | .webhookAnswered cid ctrl =>
    -- handleCallAnswered (225-248)
    match alistGet st.sessions cid with
    | some s =>
      if s.sessionReady then (st, [Act.startMediaStream ctrl])
      else
        let s2 := { s with pendingMediaStart := true,
                           pendingCallControlId := some ctrl }
        ({ st with sessions := alistSet st.sessions cid s2 }, [])
    | none => (st, [])
  | .webhookHangup cid =>
    -- handleCallHangup (253-276)
    match alistGet st.sessions cid with
    | some _ =>
      ({ st with sessions := alistDelete st.sessions cid },
       [Act.closeOpenAI cid])
    | none => (st, [])
  | .aiOpened cid wsId =>
    -- ws.on open (378-406): socket becomes OPEN, session.update sent
    ({ st with aiWsOpen := wsId :: st.aiWsOpen },
     [Act.aiSend cid AIMsg.sessionUpdate])
  | .aiSessionUpdated cid =>
    -- session.updated arm (413-448)
    match alistGet st.sessions cid with
    | some s =>
      match s.pendingMediaStart, s.pendingCallControlId with
      | true, some c =>
        let s2 := { s with sessionReady := true, pendingMediaStart := false,
                           pendingCallControlId := (none : Option Nat) }
        ({ st with sessions := alistSet st.sessions cid s2 },
         [Act.aiSend cid AIMsg.itemCreateGreeting,
          Act.startMediaStream c])
      | _, _ =>
        let s2 := { s with sessionReady := true }
        ({ st with sessions := alistSet st.sessions cid s2 },
         [Act.aiSend cid AIMsg.itemCreateGreeting])
    | none => (st, [])
  | .aiItemCreated cid role =>
    -- conversation.item.created arm (450-471)
    match alistGet st.sessions cid with
    | some s =>
      match role with
      | .user =>
        if s.hasActiveResponse then (st, [])
        else
          let s2 := { s with hasActiveResponse := true }
          ({ st with sessions := alistSet st.sessions cid s2 },
           [Act.aiSend cid AIMsg.responseCreate])
      | _ => (st, [])
    | none => (st, [])
  | .aiResponseDone cid =>
    -- response.done arm (529-536)
    match alistGet st.sessions cid with
    | some s =>
      let s2 := { s with hasActiveResponse := false }
      ({ st with sessions := alistSet st.sessions cid s2 }, [])
    | none => (st, [])
  | .aiAudioDelta cid bytes =>
    -- response.audio.delta arm (505-523)
    let r := resample24kHzTo8kHz bytes
    if r.length = 0 then (st, [])
    else sendAudioToTelnyx st cid r
  | .aiClosed cid wsId =>
    -- ws.on close (574-580): delete only if it is still this session's ws
    let st1 := { st with aiWsOpen := st.aiWsOpen.filter (fun w => w ≠ wsId) }
    match alistGet st1.sessions cid with
    | some s =>
      if s.openaiWsId = wsId then
        ({ st1 with sessions := alistDelete st1.sessions cid }, [])
      else (st1, [])
    | none => (st1, [])
  | .telnyxConnect wsId urlCid =>
    -- wss.on connection (663-692): record the URL call id, socket OPEN
    ({ st with wsCallMap := alistSet st.wsCallMap wsId urlCid,
               openWs := wsId :: st.openWs }, [])
  | .telnyxMessage wsId frame =>
    -- media-socket message handler (694-807); a socket with no wsCallMap
    -- entry cannot occur (the connection handler always adds one)
    if frame.length = 0 then (st, [])
    else
      match alistGet st.wsCallMap wsId with
      | none => (st, [])
      | some none =>
        -- fallback: claim the first session without a Telnyx socket
        -- (726-736); note this path does NOT flush the audio queue
        match st.sessions.find? (fun p => p.2.telnyxWs.isNone) with
        | some p =>
          let s2 := { p.2 with telnyxWs := some wsId }
          let st1 := { st with
            sessions := alistSet st.sessions p.1 s2,
            wsCallMap := alistSet st.wsCallMap wsId (some p.1) }
          forwardInbound st1 p.1 frame
        | none => (st, [])
      | some (some cid) =>
        -- named path (737-759): attach if unattached, flushing the queue
        -- when the socket is OPEN and the queue is non-empty
        match alistGet st.sessions cid with
        | some s =>
          match s.telnyxWs with
          | none =>
            if s.audioQueue.length ≠ 0 ∧ wsId ∈ st.openWs then
              let s2 := { s with telnyxWs := some wsId,
                                 audioQueue := ([] : List (List Nat)) }
              let st1 := { st with sessions := alistSet st.sessions cid s2 }
              let q := forwardInbound st1 cid frame
              (q.1, s.audioQueue.map (Act.telnyxSend wsId) ++ q.2)
            else
              let s2 := { s with telnyxWs := some wsId }
              let st1 := { st with sessions := alistSet st.sessions cid s2 }
              forwardInbound st1 cid frame
          | some _ => forwardInbound st cid frame
        | none => forwardInbound st cid frame
  | .telnyxClose wsId =>
    -- media-socket close handler (809-822)
    let st1 :=
      match alistGet st.wsCallMap wsId with
      | some (some cid) =>
        match alistGet st.sessions cid with
        | some s =>
          let s2 := { s with telnyxWs := (none : Option Nat) }
          { st with sessions := alistSet st.sessions cid s2 }
        | none => st
      | _ => st
    ({ st1 with wsCallMap := alistDelete st1.wsCallMap wsId,
                openWs := st1.openWs.filter (fun w => w ≠ wsId) }, [])

/-- Run a sequence of events, collecting emitted actions in order. -/
def run (st : ServerState) (evs : List Event) : ServerState × List Act :=
  match evs with
  | [] => (st, [])
  | e :: evs =>
    let p := step st e
    let q := run p.1 evs
    (q.1, p.2 ++ q.2)

/-- Number of `startMediaStream ctrl` actions in a trace of actions. -/
def startCount (acts : List Act) (ctrl : Nat) : Nat :=
  (acts.filter (fun a => a = Act.startMediaStream ctrl)).length

def countAnswered (cid : Nat) (evs : List Event) : Nat :=
  (evs.filter (fun ev => match ev with
    | .webhookAnswered c _ => c == cid
    | _ => false)).length

def countUpdated (cid : Nat) (evs : List Event) : Nat :=
  (evs.filter (fun ev => match ev with
    | .aiSessionUpdated c => c == cid
    | _ => false)).length

example :
    (run initState [.webhookInitiated 0 7, .webhookAnswered 0 7,
      .aiSessionUpdated 0]).2
    = [.answerCall 7, .aiSend 0 .itemCreateGreeting,
       .startMediaStream 7] := by decide

example :
    (run initState [.webhookInitiated 0 7, .aiSessionUpdated 0,
      .webhookAnswered 0 7]).2
    = [.answerCall 7, .aiSend 0 .itemCreateGreeting,
       .startMediaStream 7] := by decide

example :
    (run initState [.webhookInitiated 0 7, .webhookHangup 0,
      .webhookHangup 0]).2
    = [.answerCall 7, .closeOpenAI 0] := by decide

/-! ## Association-list (JS `Map`) lemmas -/

theorem alistGet_set_self {α : Type} (m : List (Nat × α)) (k : Nat) (v : α) :
    alistGet (alistSet m k v) k = some v := by
  induction m with
  | nil => simp [alistGet, alistSet]
  | cons p m ih =>
    by_cases h : p.1 = k
    · simp [alistSet, h, alistGet]
    · simp [alistSet, h, alistGet, ih]

theorem alistGet_set_ne {α : Type} (m : List (Nat × α)) (k k' : Nat) (v : α)
    (h : k ≠ k') : alistGet (alistSet m k v) k' = alistGet m k' := by
  induction m with
  | nil => simp [alistGet, alistSet, h]
  | cons p m ih =>
    by_cases hp : p.1 = k
    · simp [alistSet, hp, alistGet, h]
    · simp only [alistSet, if_neg hp, alistGet]
      by_cases hp' : p.1 = k'
      · simp [hp']
      · simp [hp', ih]

theorem alistGet_delete_self {α : Type} (m : List (Nat × α)) (k : Nat) :
    alistGet (alistDelete m k) k = none := by
  induction m with
  | nil => simp [alistGet, alistDelete]
  | cons p m ih =>
    by_cases h : p.1 = k
    · simp [alistDelete, h, ih]
    · simp [alistDelete, h, alistGet, ih]

theorem alistGet_delete_ne {α : Type} (m : List (Nat × α)) (k k' : Nat)
    (h : k ≠ k') : alistGet (alistDelete m k) k' = alistGet m k' := by
  induction m with
  | nil => simp [alistDelete]
  | cons p m ih =>
    by_cases hp : p.1 = k
    · rw [show alistDelete (p :: m) k = alistDelete m k by simp [alistDelete, hp]]
      rw [ih]
      have hp' : ¬ p.1 = k' := by rw [hp]; exact h
      simp [alistGet, hp']
    · simp only [alistDelete, if_neg hp, alistGet]
      by_cases hp' : p.1 = k'
      · simp [hp']
      · simp [hp', ih]

/-! ## C3: hangup teardown is performed once and is idempotent -/

/-- C3: processing `call.hangup` (or `call.bridged`) with a registered
session closes the OpenAI transport and removes the registry entry, leaving
every other piece of state alone; a hangup for an absent identifier — in
particular a repeated hangup — is a strict no-op emitting nothing. -/
theorem hangup_idempotent (st : ServerState) (cid : Nat) :
    (alistGet st.sessions cid = none →
      step st (.webhookHangup cid) = (st, [])) ∧
    (∀ s, alistGet st.sessions cid = some s →
      (step st (.webhookHangup cid)).2 = [Act.closeOpenAI cid] ∧
      (step st (.webhookHangup cid)).1.sessions
        = alistDelete st.sessions cid ∧
      (step st (.webhookHangup cid)).1.wsCallMap = st.wsCallMap ∧
      (step st (.webhookHangup cid)).1.openWs = st.openWs ∧
      (step st (.webhookHangup cid)).1.aiWsOpen = st.aiWsOpen ∧
      (step st (.webhookHangup cid)).1.nextWs = st.nextWs ∧
      alistGet (step st (.webhookHangup cid)).1.sessions cid = none ∧
      (∀ c, c ≠ cid →
        alistGet (step st (.webhookHangup cid)).1.sessions c
          = alistGet st.sessions c) ∧
      step (step st (.webhookHangup cid)).1 (.webhookHangup cid)
        = ((step st (.webhookHangup cid)).1, [])) := by
  constructor
  · intro h
    simp [step, h]
  · intro s hs
    refine ⟨by simp [step, hs], by simp [step, hs], by simp [step, hs],
      by simp [step, hs], by simp [step, hs], by simp [step, hs],
      ?_, ?_, ?_⟩
    · simp [step, hs, alistGet_delete_self]
    · intro c hc
      simp [step, hs, alistGet_delete_ne _ _ _ (fun h => hc h.symm)]
    · have h1 : (step st (.webhookHangup cid)).1
          = { st with sessions := alistDelete st.sessions cid } := by
        simp [step, hs]
      rw [h1]
      simp [step, alistGet_delete_self]

theorem hangup_idempotent_witness :
    (alistGet (run initState [Event.webhookInitiated 0 7]).1.sessions 5
        = none ∧
      step (run initState [Event.webhookInitiated 0 7]).1 (.webhookHangup 5)
        = ((run initState [Event.webhookInitiated 0 7]).1, [])) :=
  ⟨by decide,
   (hangup_idempotent (run initState [Event.webhookInitiated 0 7]).1 5).1
     (by decide)⟩

theorem alistGet_set_none {α : Type} {m : List (Nat × α)} {k cid : Nat}
    {v : α} (h : alistGet (alistSet m k v) cid = none) :
    alistGet m cid = none := by
  by_cases hk : k = cid
  · subst hk
    rw [alistGet_set_self] at h
    cases h
  · rwa [alistGet_set_ne _ _ _ _ hk] at h

theorem forwardInbound_fst (st : ServerState) (cid : Nat) (f : List Nat) :
    (forwardInbound st cid f).1 = st := by
  rcases hg : alistGet st.sessions cid with _ | s <;>
    simp only [forwardInbound, hg] <;> try rfl
  split_ifs <;> rfl

theorem sendAudio_sessions (st : ServerState) (cid : Nat) (buf : List Nat) :
    (sendAudioToTelnyx st cid buf).1.sessions = st.sessions ∨
    ∃ v, (sendAudioToTelnyx st cid buf).1.sessions
      = alistSet st.sessions cid v := by
  rcases hg : alistGet st.sessions cid with _ | s
  · left; simp [sendAudioToTelnyx, hg]
  · simp only [sendAudioToTelnyx, hg]
    split_ifs with h0
    · left; rfl
    · rcases s.telnyxWs with _ | w
      · right; exact ⟨_, rfl⟩
      · dsimp only
        split_ifs <;> right <;> exact ⟨_, rfl⟩

/-- Outside of `handleCallHangup` and the OpenAI close handler, no handler
ever removes a registry entry: if a session identifier resolves after a
step, it resolved before unless the event was a hangup for it or an AI
transport closure for it. -/
theorem step_preserves_session (st : ServerState) (ev : Event) (cid : Nat)
    (hev1 : ev ≠ .webhookHangup cid) (hev2 : ∀ w, ev ≠ .aiClosed cid w)
    (h2 : alistGet (step st ev).1.sessions cid = none) :
    alistGet st.sessions cid = none := by
  cases ev with
  | webhookInitiated c ctrl =>
    simp only [step] at h2
    exact alistGet_set_none h2
  | webhookAnswered c ctrl =>
    rcases hg : alistGet st.sessions c with _ | s
    · simpa [step, hg] using h2
    · simp only [step, hg] at h2
      split_ifs at h2
      · exact h2
      · exact alistGet_set_none h2
  | webhookHangup c =>
    have hc : c ≠ cid := fun h => hev1 (by rw [h])
    rcases hg : alistGet st.sessions c with _ | s
    · simpa [step, hg] using h2
    · simp only [step, hg] at h2
      rwa [alistGet_delete_ne _ _ _ hc] at h2
  | aiOpened c w =>
    simpa [step] using h2
  | aiSessionUpdated c =>
    rcases hg : alistGet st.sessions c with _ | s
    · simpa [step, hg] using h2
    · simp only [step, hg] at h2
      rcases hpm : s.pendingMediaStart with _ | _ <;>
        rcases hpc : s.pendingCallControlId with _ | pc <;>
        simp only [hpm, hpc] at h2 <;> exact alistGet_set_none h2
  | aiItemCreated c role =>
    rcases hg : alistGet st.sessions c with _ | s
    · simpa [step, hg] using h2
    · cases role with
      | user =>
        simp only [step, hg] at h2
        split_ifs at h2
        · exact h2
        · exact alistGet_set_none h2
      | assistant => simpa [step, hg] using h2
      | system => simpa [step, hg] using h2
  | aiResponseDone c =>
    rcases hg : alistGet st.sessions c with _ | s
    · simpa [step, hg] using h2
    · simp only [step, hg] at h2
      exact alistGet_set_none h2
  | aiAudioDelta c bytes =>
    simp only [step] at h2
    split_ifs at h2
    · exact h2
    · rcases sendAudio_sessions st c (resample24kHzTo8kHz bytes) with hs | ⟨v, hs⟩
      · rwa [hs] at h2
      · rw [hs] at h2
        exact alistGet_set_none h2
  | aiClosed c w =>
    have hc : c ≠ cid := fun h => hev2 w (by rw [h])
    simp only [step] at h2
    rcases hg : alistGet st.sessions c with _ | s
    · simpa [hg] using h2
    · simp only [hg] at h2
      split_ifs at h2
      · rwa [alistGet_delete_ne _ _ _ hc] at h2
      · exact h2
  | telnyxConnect w u =>
    simpa [step] using h2
  | telnyxMessage w frame =>
    simp only [step] at h2
    split_ifs at h2
    · exact h2
    · rcases hm : alistGet st.wsCallMap w with _ | u
      · simpa [hm] using h2
      · rcases u with _ | c
        · simp only [hm] at h2
          rcases hf : st.sessions.find? (fun p => p.2.telnyxWs.isNone)
            with _ | p
          · simpa [hf] using h2
          · simp only [hf] at h2
            rw [forwardInbound_fst] at h2
            exact alistGet_set_none h2
        · simp only [hm] at h2
          rcases hg : alistGet st.sessions c with _ | s
          · rw [hg] at h2
            simp only at h2
            rwa [forwardInbound_fst] at h2
          · rw [hg] at h2
            rcases ht : s.telnyxWs with _ | w'
            · simp only [ht] at h2
              split_ifs at h2 <;>
                · rw [forwardInbound_fst] at h2
                  exact alistGet_set_none h2
            · simp only [ht] at h2
              rwa [forwardInbound_fst] at h2
  | telnyxClose w =>
    simp only [step] at h2
    rcases hm : alistGet st.wsCallMap w with _ | u
    · simpa [hm] using h2
    · rcases u with _ | c
      · simpa [hm] using h2
      · simp only [hm] at h2
        rcases hg : alistGet st.sessions c with _ | s
        · simpa [hg] using h2
        · simp only [hg] at h2
          exact alistGet_set_none h2

/-! ## C5: what AI transport closure actually tears down -/

/-- C5 counterexample: run `call.initiated`, attach a Telnyx media socket
(id 3, explicitly for call 0), then close the OpenAI transport.  The
registry entry is removed, but the whole run emits only the initial
`answerCall` — the close handler (lines 574-580) emits nothing and the
attached, still-open media relay connection is left open, contradicting
"the telephony media relay connection is closed if attached". -/
theorem ai_close_leaves_relay_open :
    (run initState [Event.webhookInitiated 0 7,
        Event.telnyxConnect 3 (some 0), Event.telnyxMessage 3 [1, 1],
        Event.aiClosed 0 0]).1.sessions = [] ∧
    (run initState [Event.webhookInitiated 0 7,
        Event.telnyxConnect 3 (some 0), Event.telnyxMessage 3 [1, 1],
        Event.aiClosed 0 0]).1.openWs = [3] ∧
    (run initState [Event.webhookInitiated 0 7,
        Event.telnyxConnect 3 (some 0), Event.telnyxMessage 3 [1, 1],
        Event.aiClosed 0 0]).2 = [Act.answerCall 7] := by decide

/-- C5 amended: when the AI provider transport closes and it is still the
transport the registry entry holds, the session's registry entry is
removed, exactly once (a repeated close is a no-op on the registry),
regardless of the session's lifecycle flags; but the telephony media relay
connection is NOT closed by this teardown — the set of open media sockets
is untouched and the handler emits no action. -/
theorem ai_close_teardown_registry (st : ServerState) (cid w : Nat)
    (s : Session) (hs : alistGet st.sessions cid = some s)
    (hw : s.openaiWsId = w) :
    (step st (.aiClosed cid w)).2 = [] ∧
    (step st (.aiClosed cid w)).1.sessions = alistDelete st.sessions cid ∧
    alistGet (step st (.aiClosed cid w)).1.sessions cid = none ∧
    (step st (.aiClosed cid w)).1.openWs = st.openWs ∧
    (step (step st (.aiClosed cid w)).1 (.aiClosed cid w)).1.sessions
      = alistDelete st.sessions cid ∧
    (step (step st (.aiClosed cid w)).1 (.aiClosed cid w)).2 = [] := by
  have hA : (step st (.aiClosed cid w)).1.sessions
      = alistDelete st.sessions cid := by simp [step, hs, hw]
  have hnone : alistGet (step st (.aiClosed cid w)).1.sessions cid = none := by
    rw [hA]
    exact alistGet_delete_self _ _
  have h1 : step st (.aiClosed cid w)
      = ({ sessions := alistDelete st.sessions cid,
           wsCallMap := st.wsCallMap, openWs := st.openWs,
           aiWsOpen := st.aiWsOpen.filter (fun x => x ≠ w),
           nextWs := st.nextWs }, []) := by
    simp [step, hs, hw]
  refine ⟨by simp [step, hs, hw], hA, hnone, by simp [step, hs, hw], ?_, ?_⟩
  · rw [h1]
    simp [step, alistGet_delete_self]
  · rw [h1]
    simp [step, alistGet_delete_self]

theorem ai_close_teardown_registry_witness :
    (alistGet (run initState [Event.webhookInitiated 0 7]).1.sessions 0
        = some { openaiWsId := 0, callControlId := 7, sessionReady := false,
                 telnyxWs := none, pendingMediaStart := false,
                 pendingCallControlId := none, hasActiveResponse := false,
                 audioQueue := [] } ∧
      ({ openaiWsId := 0, callControlId := 7, sessionReady := false,
         telnyxWs := none, pendingMediaStart := false,
         pendingCallControlId := none, hasActiveResponse := false,
         audioQueue := [] } : Session).openaiWsId = 0) ∧
    alistGet (step (run initState [Event.webhookInitiated 0 7]).1
        (.aiClosed 0 0)).1.sessions 0 = none :=
  ⟨⟨by decide, by decide⟩,
   (ai_close_teardown_registry (run initState [Event.webhookInitiated 0 7]).1
     0 0 { openaiWsId := 0, callControlId := 7, sessionReady := false,
           telnyxWs := none, pendingMediaStart := false,
           pendingCallControlId := none, hasActiveResponse := false,
           audioQueue := [] } (by decide) (by decide)).2.2.1⟩

/-! ## C9: relay-socket closure detaches but nothing ever implicitly
hangs the session up -/

/-- C9 counterexample: after the media socket for call 0 closes (no hangup
ever arriving), the session is still registered with `telnyxWs = none`, and
it is still registered after an arbitrary further stretch of activity —
there is no grace-period fallback that destroys it. -/
theorem no_grace_period_teardown_cex :
    ((alistGet (run initState [Event.webhookInitiated 0 7,
        Event.aiOpened 0 0, Event.aiSessionUpdated 0,
        Event.telnyxConnect 3 (some 0), Event.telnyxMessage 3 [1, 1],
        Event.telnyxClose 3]).1.sessions 0).map (fun s => s.telnyxWs)
      = some none) ∧
    (alistGet (run initState [Event.webhookInitiated 0 7,
        Event.aiOpened 0 0, Event.aiSessionUpdated 0,
        Event.telnyxConnect 3 (some 0), Event.telnyxMessage 3 [1, 1],
        Event.telnyxClose 3, Event.aiItemCreated 0 Role.user,
        Event.aiResponseDone 0, Event.aiAudioDelta 0 [1, 0, 0, 0, 0, 0],
        Event.telnyxConnect 4 (some 0)]).1.sessions 0).isSome = true := by
  decide

/-- C9 amended: closing the telephony media socket detaches it from its
session (`telnyxWs := none`), emits nothing and never removes the session;
and no grace-period fallback exists: a registry entry disappears only when
a hangup/bridged webhook or an AI transport close for that identifier is
processed. -/
theorem relay_close_detach_only (st : ServerState) (w : Nat) :
    (step st (.telnyxClose w)).2 = [] ∧
    (∀ cid s, alistGet st.wsCallMap w = some (some cid) →
      alistGet st.sessions cid = some s →
      alistGet (step st (.telnyxClose w)).1.sessions cid
        = some { s with telnyxWs := none }) ∧
    (∀ cid, alistGet st.sessions cid ≠ none →
      alistGet (step st (.telnyxClose w)).1.sessions cid ≠ none) ∧
    (∀ ev cid, alistGet st.sessions cid ≠ none →
      alistGet (step st ev).1.sessions cid = none →
      ev = .webhookHangup cid ∨ ∃ ws, ev = .aiClosed cid ws) := by
  refine ⟨?_, ?_, ?_, ?_⟩
  · rcases hm : alistGet st.wsCallMap w with _ | u
    · simp [step, hm]
    · rcases u with _ | c
      · simp [step, hm]
      · rcases hg : alistGet st.sessions c with _ | s <;> simp [step, hm, hg]
  · intro cid s hm hg
    simp [step, hm, hg, alistGet_set_self]
  · intro cid h1 h2
    exact h1 (step_preserves_session st _ cid (by simp) (by simp) h2)
  · intro ev cid h1 h2
    by_cases he1 : ev = .webhookHangup cid
    · exact Or.inl he1
    · by_cases he2 : ∃ ws, ev = .aiClosed cid ws
      · exact Or.inr he2
      · exfalso
        push_neg at he2
        exact h1 (step_preserves_session st ev cid he1 he2 h2)

theorem relay_close_detach_only_witness :
    (alistGet (run initState [Event.webhookInitiated 0 7,
        Event.telnyxConnect 3 (some 0),
        Event.telnyxMessage 3 [1, 1]]).1.sessions 0 ≠ none) ∧
    alistGet (step (run initState [Event.webhookInitiated 0 7,
        Event.telnyxConnect 3 (some 0),
        Event.telnyxMessage 3 [1, 1]]).1 (.telnyxClose 3)).1.sessions 0
      ≠ none :=
  ⟨by decide,
   (relay_close_detach_only (run initState [Event.webhookInitiated 0 7,
      Event.telnyxConnect 3 (some 0),
      Event.telnyxMessage 3 [1, 1]]).1 3).2.2.1 0 (by decide)⟩

/-! ## C2: the `response.create` guard -/

/-- Number of `response.create` requests for `cid` in a list of actions. -/
def rcCount (cid : Nat) (acts : List Act) : Nat :=
  (acts.filter (fun a => a = Act.aiSend cid AIMsg.responseCreate)).length

/-- The session for `cid` exists and has no response in flight. -/
def flagFreeSession (st : ServerState) (cid : Nat) : Bool :=
  match alistGet st.sessions cid with
  | some s => !s.hasActiveResponse
  | none => false

theorem rcCount_telnyxSends (cid w : Nat) (q : List (List Nat)) :
    rcCount cid (q.map (Act.telnyxSend w)) = 0 := by
  induction q with
  | nil => rfl
  | cons b q ih => simpa [rcCount, List.filter] using ih

theorem rcCount_cons_telnyxSend (cid w : Nat) (b : List Nat)
    (acts : List Act) :
    rcCount cid (Act.telnyxSend w b :: acts) = rcCount cid acts := by
  simp [rcCount, List.filter]

theorem rcCount_sendAudio (st : ServerState) (c cid : Nat)
    (buf : List Nat) : rcCount cid (sendAudioToTelnyx st c buf).2 = 0 := by
  rcases hg : alistGet st.sessions c with _ | s
  · simp [sendAudioToTelnyx, hg, rcCount]
  · simp only [sendAudioToTelnyx, hg]
    split_ifs with h0
    · rfl
    · rcases s.telnyxWs with _ | w
      · rfl
      · dsimp only
        split_ifs
        · rw [rcCount_cons_telnyxSend, rcCount_telnyxSends]
        · rfl

theorem rcCount_forward (st : ServerState) (c cid : Nat) (f : List Nat) :
    rcCount cid (forwardInbound st c f).2 = 0 := by
  rcases hg : alistGet st.sessions c with _ | s
  · simp [forwardInbound, hg, rcCount]
  · simp only [forwardInbound, hg]
    split_ifs <;> simp [rcCount]


theorem rcCount_append (cid : Nat) (a b : List Act) :
    rcCount cid (a ++ b) = rcCount cid a + rcCount cid b := by
  simp [rcCount, List.filter_append]

/-- Exactly when a `conversation.item.created` event carries a user-role
item and the session has no active response does the step emit a
`response.create`, and then exactly one. -/
theorem rcCount_step (st : ServerState) (cid : Nat) (ev : Event) :
    rcCount cid (step st ev).2
      = if ev = .aiItemCreated cid .user ∧ flagFreeSession st cid = true
        then 1 else 0 := by
  cases ev with
  | webhookInitiated c ctrl =>
    rw [if_neg (by simp)]
    simp [step, rcCount]
  | webhookAnswered c ctrl =>
    rw [if_neg (by simp)]
    rcases hg : alistGet st.sessions c with _ | s
    · simp [step, hg, rcCount]
    · simp only [step, hg]
      split_ifs <;> simp [rcCount]
  | webhookHangup c =>
    rw [if_neg (by simp)]
    rcases hg : alistGet st.sessions c with _ | s <;>
      simp [step, hg, rcCount]
  | aiOpened c w =>
    rw [if_neg (by simp)]
    simp [step, rcCount]
  | aiSessionUpdated c =>
    rw [if_neg (by simp)]
    rcases hg : alistGet st.sessions c with _ | s
    · simp [step, hg, rcCount]
    · simp only [step, hg]
      rcases hpm : s.pendingMediaStart with _ | _ <;>
        rcases hpc : s.pendingCallControlId with _ | pc <;>
        simp [rcCount]
  | aiItemCreated c role =>
    cases role with
    | user =>
      by_cases hc : c = cid
      · subst hc
        rcases hg : alistGet st.sessions c with _ | s
        · have hff : flagFreeSession st c = false := by
            simp [flagFreeSession, hg]
          simp [step, hg, rcCount, hff]
        · by_cases hr : s.hasActiveResponse = true
          · have hff : flagFreeSession st c = false := by
              simp [flagFreeSession, hg, hr]
            simp [step, hg, hr, rcCount, hff]
          · simp only [Bool.not_eq_true] at hr
            have hff : flagFreeSession st c = true := by
              simp [flagFreeSession, hg, hr]
            simp [step, hg, hr, rcCount, hff]
      · rw [if_neg (by simp [hc])]
        rcases hg : alistGet st.sessions c with _ | s
        · simp [step, hg, rcCount]
        · simp only [step, hg]
          split_ifs <;> simp [rcCount, hc, Ne.symm hc]
    | assistant =>
      rw [if_neg (by simp)]
      rcases hg : alistGet st.sessions c with _ | s <;>
        simp [step, hg, rcCount]
    | system =>
      rw [if_neg (by simp)]
      rcases hg : alistGet st.sessions c with _ | s <;>
        simp [step, hg, rcCount]
  | aiResponseDone c =>
    rw [if_neg (by simp)]
    rcases hg : alistGet st.sessions c with _ | s <;>
      simp [step, hg, rcCount]
  | aiAudioDelta c bytes =>
    rw [if_neg (by simp)]
    simp only [step]
    split_ifs
    · simp [rcCount]
    · simp [rcCount_sendAudio]
  | aiClosed c w =>
    rw [if_neg (by simp)]
    simp only [step]
    rcases hg : alistGet st.sessions c with _ | s
    · simp [hg, rcCount]
    · simp only [hg]
      split_ifs <;> simp [rcCount]
  | telnyxConnect w u =>
    rw [if_neg (by simp)]
    simp [step, rcCount]
  | telnyxMessage w frame =>
    rw [if_neg (by simp)]
    simp only [step]
    split_ifs
    · simp [rcCount]
    · rcases hm : alistGet st.wsCallMap w with _ | u
      · simp [hm, rcCount]
      · rcases u with _ | c
        · simp only [hm]
          rcases hf : st.sessions.find? (fun p => p.2.telnyxWs.isNone)
            with _ | p
          · simp [hf, rcCount]
          · simp [hf, rcCount_forward]
        · simp only [hm]
          rcases hg : alistGet st.sessions c with _ | s
          · simp [hg, rcCount_forward]
          · simp only [hg]
            rcases ht : s.telnyxWs with _ | w'
            · simp only [ht]
              split_ifs
              · rw [rcCount_append, rcCount_telnyxSends, rcCount_forward]
              · simp [rcCount_forward]
            · simp [ht, rcCount_forward]
  | telnyxClose w =>
    rw [if_neg (by simp)]
    rcases hm : alistGet st.wsCallMap w with _ | u
    · simp [step, hm, rcCount]
    · rcases u with _ | c
      · simp [step, hm, rcCount]
      · rcases hg : alistGet st.sessions c with _ | s <;>
          simp [step, hm, hg, rcCount]

theorem get_after_set_flag {m : List (Nat × Session)} {c cid : Nat}
    {s0 v s s' : Session} (hg : alistGet m c = some s0)
    (hs : alistGet m cid = some s)
    (hs' : alistGet (alistSet m c v) cid = some s')
    (hflag : v.hasActiveResponse = s0.hasActiveResponse) :
    s'.hasActiveResponse = s.hasActiveResponse := by
  by_cases hc : c = cid
  · subst hc
    rw [alistGet_set_self] at hs'
    rw [hg] at hs
    cases hs
    cases hs'
    exact hflag
  · rw [alistGet_set_ne _ _ _ _ hc] at hs'
    rw [hs] at hs'
    cases hs'
    rfl

theorem sendAudio_flag {st : ServerState} {c cid : Nat} {buf : List Nat}
    {s s' : Session} (hs : alistGet st.sessions cid = some s)
    (hs' : alistGet (sendAudioToTelnyx st c buf).1.sessions cid = some s') :
    s'.hasActiveResponse = s.hasActiveResponse := by
  rcases hg : alistGet st.sessions c with _ | s0
  · simp only [sendAudioToTelnyx, hg] at hs'
    rw [hs] at hs'
    cases hs'
    rfl
  · simp only [sendAudioToTelnyx, hg] at hs'
    split_ifs at hs' with h0
    · rw [hs] at hs'
      cases hs'
      rfl
    · rcases ht : s0.telnyxWs with _ | w
      · simp only [ht] at hs'
        exact get_after_set_flag hg hs hs' rfl
      · simp only [ht] at hs'
        split_ifs at hs' <;> exact get_after_set_flag hg hs hs' rfl

theorem alistGet_of_mem_nodup {α : Type} {m : List (Nat × α)}
    {p : Nat × α} (hmem : p ∈ m) (hnd : (m.map Prod.fst).Nodup) :
    alistGet m p.1 = some p.2 := by
  induction m with
  | nil => cases hmem
  | cons q m ih =>
    rw [List.map_cons, List.nodup_cons] at hnd
    rcases List.mem_cons.mp hmem with hq | hmem'
    · subst hq
      simp [alistGet]
    · have hne : ¬ q.1 = p.1 := by
        intro he
        exact hnd.1 (he ▸ List.mem_map.mpr ⟨p, hmem', rfl⟩)
      simp only [alistGet, if_neg hne]
      exact ih hmem' hnd.2

/-- `hasActiveResponse` can only go from `true` to `false` while the
session survives in the registry through `response.done` — or through a
repeated `call.initiated` for the same identifier, which replaces the
session object wholesale with a fresh one. -/
theorem flag_drop_only (st : ServerState) (ev : Event) (cid : Nat)
    (s s' : Session) (hnd : (st.sessions.map Prod.fst).Nodup)
    (hs : alistGet st.sessions cid = some s)
    (hs' : alistGet (step st ev).1.sessions cid = some s')
    (h1 : s.hasActiveResponse = true) (h2 : s'.hasActiveResponse = false) :
    ev = .aiResponseDone cid ∨ ∃ c, ev = .webhookInitiated cid c := by
  cases ev with
  | webhookInitiated c ctl =>
    by_cases hc : c = cid
    · subst hc
      exact Or.inr ⟨ctl, rfl⟩
    · exfalso
      simp only [step] at hs'
      rw [alistGet_set_ne _ _ _ _ hc, hs] at hs'
      cases hs'
      simp [h1] at h2
  | webhookAnswered c ctl =>
    exfalso
    rcases hg : alistGet st.sessions c with _ | s0
    · simp only [step, hg] at hs'
      rw [hs] at hs'
      cases hs'
      simp [h1] at h2
    · simp only [step, hg] at hs'
      split_ifs at hs'
      · rw [hs] at hs'
        cases hs'
        simp [h1] at h2
      · have hp := get_after_set_flag hg hs hs' rfl
        simp [h1, h2] at hp
  | webhookHangup c =>
    exfalso
    rcases hg : alistGet st.sessions c with _ | s0
    · simp only [step, hg] at hs'
      rw [hs] at hs'
      cases hs'
      simp [h1] at h2
    · simp only [step, hg] at hs'
      by_cases hc : c = cid
      · subst hc
        rw [alistGet_delete_self] at hs'
        cases hs'
      · rw [alistGet_delete_ne _ _ _ hc, hs] at hs'
        cases hs'
        simp [h1] at h2
  | aiOpened c w =>
    exfalso
    simp only [step] at hs'
    rw [hs] at hs'
    cases hs'
    simp [h1] at h2
  | aiSessionUpdated c =>
    exfalso
    rcases hg : alistGet st.sessions c with _ | s0
    · simp only [step, hg] at hs'
      rw [hs] at hs'
      cases hs'
      simp [h1] at h2
    · simp only [step, hg] at hs'
      rcases hpm : s0.pendingMediaStart with _ | _ <;>
        rcases hpc : s0.pendingCallControlId with _ | pc <;>
        simp only [hpm, hpc] at hs' <;>
        · have hp := get_after_set_flag hg hs hs' rfl
          simp [h1, h2] at hp
  | aiItemCreated c role =>
    exfalso
    cases role with
    | user =>
      rcases hg : alistGet st.sessions c with _ | s0
      · simp only [step, hg] at hs'
        rw [hs] at hs'
        cases hs'
        simp [h1] at h2
      · simp only [step, hg] at hs'
        split_ifs at hs'
        · rw [hs] at hs'
          cases hs'
          simp [h1] at h2
        · by_cases hc : c = cid
          · subst hc
            rw [alistGet_set_self] at hs'
            cases hs'
            simp at h2
          · rw [alistGet_set_ne _ _ _ _ hc, hs] at hs'
            cases hs'
            simp [h1] at h2
    | assistant =>
      rcases hg : alistGet st.sessions c with _ | s0 <;>
        · simp only [step, hg] at hs'
          rw [hs] at hs'
          cases hs'
          simp [h1] at h2
    | system =>
      rcases hg : alistGet st.sessions c with _ | s0 <;>
        · simp only [step, hg] at hs'
          rw [hs] at hs'
          cases hs'
          simp [h1] at h2
  | aiResponseDone c =>
    by_cases hc : c = cid
    · subst hc
      exact Or.inl rfl
    · exfalso
      rcases hg : alistGet st.sessions c with _ | s0
      · simp only [step, hg] at hs'
        rw [hs] at hs'
        cases hs'
        simp [h1] at h2
      · simp only [step, hg] at hs'
        rw [alistGet_set_ne _ _ _ _ hc, hs] at hs'
        cases hs'
        simp [h1] at h2
  | aiAudioDelta c bytes =>
    exfalso
    simp only [step] at hs'
    split_ifs at hs'
    · rw [hs] at hs'
      cases hs'
      simp [h1] at h2
    · have hp := sendAudio_flag hs hs'
      simp [h1, h2] at hp
  | aiClosed c w =>
    exfalso
    simp only [step] at hs'
    rcases hg : alistGet st.sessions c with _ | s0
    · simp only [hg] at hs'
      rw [hs] at hs'
      cases hs'
      simp [h1] at h2
    · simp only [hg] at hs'
      split_ifs at hs'
      · by_cases hc : c = cid
        · subst hc
          rw [alistGet_delete_self] at hs'
          cases hs'
        · rw [alistGet_delete_ne _ _ _ hc, hs] at hs'
          cases hs'
          simp [h1] at h2
      · rw [hs] at hs'
        cases hs'
        simp [h1] at h2
  | telnyxConnect w u =>
    exfalso
    simp only [step] at hs'
    rw [hs] at hs'
    cases hs'
    simp [h1] at h2
  | telnyxMessage w frame =>
    exfalso
    simp only [step] at hs'
    split_ifs at hs'
    · rw [hs] at hs'
      cases hs'
      simp [h1] at h2
    · rcases hm : alistGet st.wsCallMap w with _ | u
      · simp only [hm] at hs'
        rw [hs] at hs'
        cases hs'
        simp [h1] at h2
      · rcases u with _ | c
        · simp only [hm] at hs'
          rcases hf : st.sessions.find? (fun p => p.2.telnyxWs.isNone)
            with _ | p
          · simp only [hf] at hs'
            rw [hs] at hs'
            cases hs'
            simp [h1] at h2
          · simp only [hf] at hs'
            rw [forwardInbound_fst] at hs'
            have hmem := List.mem_of_find?_eq_some hf
            have hg := alistGet_of_mem_nodup hmem hnd
            have hp := get_after_set_flag hg hs hs' rfl
            simp [h1, h2] at hp
        · simp only [hm] at hs'
          rcases hg : alistGet st.sessions c with _ | s0
          · simp only [hg] at hs'
            rw [forwardInbound_fst] at hs'
            rw [hs] at hs'
            cases hs'
            simp [h1] at h2
          · simp only [hg] at hs'
            rcases ht : s0.telnyxWs with _ | w'
            · simp only [ht] at hs'
              split_ifs at hs' <;>
                · rw [forwardInbound_fst] at hs'
                  have hp := get_after_set_flag hg hs hs' rfl
                  simp [h1, h2] at hp
            · simp only [ht] at hs'
              rw [forwardInbound_fst] at hs'
              rw [hs] at hs'
              cases hs'
              simp [h1] at h2
  | telnyxClose w =>
    exfalso
    rcases hm : alistGet st.wsCallMap w with _ | u
    · simp only [step, hm] at hs'
      rw [hs] at hs'
      cases hs'
      simp [h1] at h2
    · rcases u with _ | c
      · simp only [step, hm] at hs'
        rw [hs] at hs'
        cases hs'
        simp [h1] at h2
      · simp only [step, hm] at hs'
        rcases hg : alistGet st.sessions c with _ | s0
        · simp only [hg] at hs'
          rw [hs] at hs'
          cases hs'
          simp [h1] at h2
        · simp only [hg] at hs'
          have hp := get_after_set_flag hg hs hs' rfl
          simp [h1, h2] at hp

/-- C2: a `response.create` is emitted exactly by a
`conversation.item.created` event carrying a user-role item while
`hasActiveResponse` is false (so never while a response is active, and at
most one per step); that step sets the flag; a user item arriving while the
flag is set is entirely suppressed; `response.done` clears the flag and
emits nothing; and (over registries without duplicate keys, the only kind
the server builds) the flag is cleared only by `response.done` — or by a
repeated `call.initiated` replacing the session object wholesale. -/
theorem response_create_guarded (st : ServerState) (cid : Nat) :
    (∀ ev, rcCount cid (step st ev).2
        = if ev = .aiItemCreated cid .user ∧ flagFreeSession st cid = true
          then 1 else 0) ∧
    (∀ ev s, alistGet st.sessions cid = some s →
      s.hasActiveResponse = true → rcCount cid (step st ev).2 = 0) ∧
    (∀ s, alistGet st.sessions cid = some s → s.hasActiveResponse = false →
      (step st (.aiItemCreated cid .user)).2
        = [Act.aiSend cid AIMsg.responseCreate] ∧
      alistGet (step st (.aiItemCreated cid .user)).1.sessions cid
        = some { s with hasActiveResponse := true }) ∧
    (∀ s, alistGet st.sessions cid = some s → s.hasActiveResponse = true →
      step st (.aiItemCreated cid .user) = (st, [])) ∧
    (∀ s, alistGet st.sessions cid = some s →
      alistGet (step st (.aiResponseDone cid)).1.sessions cid
        = some { s with hasActiveResponse := false } ∧
      (step st (.aiResponseDone cid)).2 = []) ∧
    ((st.sessions.map Prod.fst).Nodup →
      ∀ ev s s', alistGet st.sessions cid = some s →
        alistGet (step st ev).1.sessions cid = some s' →
        s.hasActiveResponse = true → s'.hasActiveResponse = false →
        ev = .aiResponseDone cid ∨ ∃ c, ev = .webhookInitiated cid c) := by
  refine ⟨rcCount_step st cid, ?_, ?_, ?_, ?_, ?_⟩
  · intro ev s hs hr
    rw [rcCount_step st cid ev, if_neg]
    intro h
    have : flagFreeSession st cid = false := by
      simp [flagFreeSession, hs, hr]
    rw [this] at h
    cases h.2
  · intro s hs hr
    constructor
    · simp [step, hs, hr]
    · simp [step, hs, hr, alistGet_set_self]
  · intro s hs hr
    simp [step, hs, hr]
  · intro s hs
    constructor
    · simp [step, hs, alistGet_set_self]
    · simp [step, hs]
  · intro hnd ev s s' hs hs' h1 h2
    exact flag_drop_only st ev cid s s' hnd hs hs' h1 h2

theorem response_create_guarded_witness :
    (alistGet (run initState [Event.webhookInitiated 0 7]).1.sessions 0
        = some { openaiWsId := 0, callControlId := 7, sessionReady := false,
                 telnyxWs := none, pendingMediaStart := false,
                 pendingCallControlId := none, hasActiveResponse := false,
                 audioQueue := [] } ∧
      ({ openaiWsId := 0, callControlId := 7, sessionReady := false,
         telnyxWs := none, pendingMediaStart := false,
         pendingCallControlId := none, hasActiveResponse := false,
         audioQueue := [] } : Session).hasActiveResponse = false) ∧
    (step (run initState [Event.webhookInitiated 0 7]).1
        (.aiItemCreated 0 .user)).2
      = [Act.aiSend 0 AIMsg.responseCreate] :=
  ⟨⟨by decide, by decide⟩,
   ((response_create_guarded (run initState [Event.webhookInitiated 0 7]).1
      0).2.2.1 { openaiWsId := 0, callControlId := 7, sessionReady := false,
                 telnyxWs := none, pendingMediaStart := false,
                 pendingCallControlId := none, hasActiveResponse := false,
                 audioQueue := [] } (by decide) (by decide)).1⟩

/-! ## Single-call traces: supporting lemmas for C1, C8 and C4 -/

theorem alistGet_singleton_self (cid : Nat) (s : Session) :
    alistGet [(cid, s)] cid = some s := by
  simp [alistGet]

theorem alistGet_singleton_ne (cid c : Nat) (s : Session) (h : ¬ c = cid) :
    alistGet [(cid, s)] c = none := by
  have h' : ¬ cid = c := fun he => h he.symm
  simp [alistGet, h']

theorem alistSet_singleton (cid : Nat) (s v : Session) :
    alistSet [(cid, s)] cid v = [(cid, v)] := by
  simp [alistSet]

theorem run_cons (st : ServerState) (e : Event) (evs : List Event) :
    run st (e :: evs)
      = ((run (step st e).1 evs).1,
         (step st e).2 ++ (run (step st e).1 evs).2) := rfl

theorem startCount_append (ctrl : Nat) (a b : List Act) :
    startCount (a ++ b) ctrl = startCount a ctrl + startCount b ctrl := by
  simp [startCount, List.filter_append]

theorem startCount_telnyxSends (ctrl w : Nat) (q : List (List Nat)) :
    startCount (q.map (Act.telnyxSend w)) ctrl = 0 := by
  induction q with
  | nil => rfl
  | cons b q ih => simpa [startCount, List.filter] using ih

theorem startCount_forward (st : ServerState) (c : Nat) (f : List Nat)
    (ctrl : Nat) : startCount (forwardInbound st c f).2 ctrl = 0 := by
  rcases hg : alistGet st.sessions c with _ | s
  · simp [forwardInbound, hg, startCount]
  · simp only [forwardInbound, hg]
    split_ifs <;> simp [startCount]

/-- Running `sendAudioToTelnyx` against a single-session registry: the
session keeps every lifecycle field (only `audioQueue` can change, and it
only becomes `[]` when it is flushed to an attached open socket, or grows
by the new frame), and no `startMediaStream` is emitted. -/
theorem sendAudio_singleton (st : ServerState) (cid : Nat) (buf : List Nat)
    (s : Session) (ctrl : Nat) (hss : st.sessions = [(cid, s)]) :
    ∃ s2, (sendAudioToTelnyx st cid buf).1.sessions = [(cid, s2)] ∧
      s2.sessionReady = s.sessionReady ∧
      s2.pendingMediaStart = s.pendingMediaStart ∧
      s2.pendingCallControlId = s.pendingCallControlId ∧
      (s2.audioQueue = s.audioQueue ∨ s2.audioQueue = []
        ∨ s2.audioQueue = s.audioQueue ++ [buf]) ∧
      startCount (sendAudioToTelnyx st cid buf).2 ctrl = 0 := by
  have hget : alistGet st.sessions cid = some s := by
    rw [hss]; exact alistGet_singleton_self cid s
  simp only [sendAudioToTelnyx, hget]
  split_ifs with h0
  · exact ⟨s, by simp [hss], rfl, rfl, rfl, Or.inl rfl, rfl⟩
  · rcases ht : s.telnyxWs with _ | w
    · dsimp only
      refine ⟨{ s with audioQueue := s.audioQueue ++ [buf] }, ?_, rfl, rfl,
        rfl, Or.inr (Or.inr rfl), by simp [startCount]⟩
      rw [hss, alistSet_singleton, ht]
    · dsimp only
      split_ifs with hw
      · refine ⟨{ s with audioQueue := ([] : List (List Nat)) }, ?_, rfl,
          rfl, rfl, Or.inr (Or.inl rfl), ?_⟩
        · rw [hss, alistSet_singleton, ht]
        · rw [show startCount (Act.telnyxSend w buf
              :: s.audioQueue.map (Act.telnyxSend w)) ctrl
            = startCount (s.audioQueue.map (Act.telnyxSend w)) ctrl by
              simp [startCount, List.filter]]
          exact startCount_telnyxSends ctrl w s.audioQueue
      · refine ⟨{ s with audioQueue := s.audioQueue ++ [buf] }, ?_, rfl,
          rfl, rfl, Or.inr (Or.inr rfl), by simp [startCount]⟩
        rw [hss, alistSet_singleton, ht]

/-- Shape of the events a single-call trace for call `cid` (with control
handle `ctrl`) may contain: no further `call.initiated`, no hangup or AI
close for this call, session-scoped AI events only for this call, and
`call.answered` only for this call with this control handle. -/
def okEv (cid ctrl : Nat) : Event → Prop
  | .webhookInitiated _ _ => False
  | .webhookAnswered c x => c = cid ∧ x = ctrl
  | .webhookHangup c => ¬ c = cid
  | .aiClosed c _ => ¬ c = cid
  | .aiSessionUpdated c => c = cid
  | .aiItemCreated c _ => c = cid
  | .aiResponseDone c => c = cid
  | .aiAudioDelta c _ => c = cid
  | .aiOpened _ _ => True
  | .telnyxConnect _ _ => True
  | .telnyxMessage _ _ => True
  | .telnyxClose _ => True

/-- Provider causality: the AI only streams response audio after it has
confirmed the session configuration (`u` says the confirmation already
happened before this trace). -/
def deltasAfterReady (cid : Nat) (u : Bool) (evs : List Event) : Prop :=
  ∀ p c b q, evs = p ++ Event.aiAudioDelta c b :: q →
    u = true ∨ 1 ≤ countUpdated cid p

theorem countAnswered_cons_self (cid x : Nat) (evs : List Event) :
    countAnswered cid (.webhookAnswered cid x :: evs)
      = countAnswered cid evs + 1 := by
  simp [countAnswered, List.filter]

theorem countAnswered_cons_other (cid : Nat) (ev : Event)
    (evs : List Event) (h : ∀ x, ¬ ev = .webhookAnswered cid x) :
    countAnswered cid (ev :: evs) = countAnswered cid evs := by
  cases ev
  case webhookAnswered c x =>
    have hc : ¬ c = cid := fun he => h x (by rw [he])
    have hb : (c == cid) = false := by simp [hc]
    simp [countAnswered, List.filter, hb]
  all_goals simp [countAnswered, List.filter]

theorem countUpdated_cons_self (cid : Nat) (evs : List Event) :
    countUpdated cid (.aiSessionUpdated cid :: evs)
      = countUpdated cid evs + 1 := by
  simp [countUpdated, List.filter]

theorem countUpdated_cons_other (cid : Nat) (ev : Event)
    (evs : List Event) (h : ¬ ev = .aiSessionUpdated cid) :
    countUpdated cid (ev :: evs) = countUpdated cid evs := by
  cases ev
  case aiSessionUpdated c =>
    have hc : ¬ c = cid := fun he => h (by rw [he])
    have hb : (c == cid) = false := by simp [hc]
    simp [countUpdated, List.filter, hb]
  all_goals simp [countUpdated, List.filter]

theorem deltasAfterReady_true (cid : Nat) (evs : List Event) :
    deltasAfterReady cid true evs := fun _ _ _ _ _ => Or.inl rfl

theorem deltasAfterReady_tail_other {cid : Nat} {u : Bool} {ev : Event}
    {evs : List Event} (h : deltasAfterReady cid u (ev :: evs))
    (hne : ¬ ev = .aiSessionUpdated cid) :
    deltasAfterReady cid u evs := by
  intro p c b q hd
  rcases h (ev :: p) c b q (by rw [hd]; rfl) with h1 | h2
  · exact Or.inl h1
  · right
    rwa [countUpdated_cons_other cid ev p hne] at h2

/-- Events that neither create a session, nor are this call's
`call.answered`/`session.updated`/hangup/AI-close: they may touch
`hasActiveResponse`, `telnyxWs`, `audioQueue` and the socket bookkeeping
but never the lifecycle fields relevant to the media-stream start. -/
def c1Noise (cid : Nat) : Event → Prop
  | .webhookInitiated _ _ => False
  | .webhookAnswered _ _ => False
  | .aiSessionUpdated _ => False
  | .webhookHangup c => ¬ c = cid
  | .aiClosed c _ => ¬ c = cid
  | .aiOpened _ _ => True
  | .aiItemCreated _ _ => True
  | .aiResponseDone _ => True
  | .aiAudioDelta _ _ => True
  | .telnyxConnect _ _ => True
  | .telnyxMessage _ _ => True
  | .telnyxClose _ => True

theorem okEv_c1Noise {cid ctrl : Nat} {ev : Event}
    (hok : okEv cid ctrl ev)
    (hans : ¬ ∃ x, ev = Event.webhookAnswered cid x)
    (hupd : ¬ ev = Event.aiSessionUpdated cid) : c1Noise cid ev := by
  cases ev with
  | webhookInitiated c x => exact hok
  | webhookAnswered c x =>
    exact absurd ⟨x, by rw [hok.1]⟩ hans
  | aiSessionUpdated c =>
    exact absurd (by rw [hok]) hupd
  | webhookHangup c => exact hok
  | aiClosed c w => exact hok
  | aiOpened c w => trivial
  | aiItemCreated c r => trivial
  | aiResponseDone c => trivial
  | aiAudioDelta c b => trivial
  | telnyxConnect w u => trivial
  | telnyxMessage w f => trivial
  | telnyxClose w => trivial

theorem c1Noise_not_answered {cid : Nat} {ev : Event}
    (hn : c1Noise cid ev) : ∀ x, ¬ ev = Event.webhookAnswered cid x := by
  intro x he
  subst he
  exact hn

theorem c1Noise_not_updated {cid : Nat} {ev : Event}
    (hn : c1Noise cid ev) : ¬ ev = Event.aiSessionUpdated cid := by
  intro he
  subst he
  exact hn

/-- Stepping a noise event against a single-session registry: the session
keeps its lifecycle fields (`sessionReady`, `pendingMediaStart`,
`pendingCallControlId`); the queue persists, empties, or (only for an
audio delta) grows; and no `startMediaStream` is emitted. -/
theorem step_noise_singleton (cid ctrl : Nat) (st : ServerState)
    (s : Session) (ev : Event) (hss : st.sessions = [(cid, s)])
    (hn : c1Noise cid ev) :
    ∃ s2, (step st ev).1.sessions = [(cid, s2)] ∧
      s2.sessionReady = s.sessionReady ∧
      s2.pendingMediaStart = s.pendingMediaStart ∧
      s2.pendingCallControlId = s.pendingCallControlId ∧
      ((s2.audioQueue = s.audioQueue ∨ s2.audioQueue = [])
        ∨ ∃ c b, ev = Event.aiAudioDelta c b) ∧
      startCount (step st ev).2 ctrl = 0 := by
  have hget : alistGet [(cid, s)] cid = some s := alistGet_singleton_self cid s
  cases ev with
  | webhookInitiated c x => exact hn.elim
  | webhookAnswered c x => exact hn.elim
  | aiSessionUpdated c => exact hn.elim
  | webhookHangup c =>
    have hgetc : alistGet [(cid, s)] c = none :=
      alistGet_singleton_ne cid c s hn
    exact ⟨s, by simp [step, hss, hgetc], rfl, rfl, rfl, Or.inl (Or.inl rfl),
      by simp [step, hss, hgetc, startCount]⟩
  | aiClosed c w =>
    have hgetc : alistGet [(cid, s)] c = none :=
      alistGet_singleton_ne cid c s hn
    exact ⟨s, by simp [step, hss, hgetc], rfl, rfl, rfl, Or.inl (Or.inl rfl),
      by simp [step, hss, hgetc, startCount]⟩
  | aiOpened c w =>
    exact ⟨s, by simp [step, hss], rfl, rfl, rfl, Or.inl (Or.inl rfl),
      by simp [step, startCount]⟩
  | aiItemCreated c role =>
    by_cases hc : c = cid
    · subst hc
      cases role with
      | user =>
        by_cases hr : s.hasActiveResponse
        · exact ⟨s, by simp [step, hss, hget, hr], rfl, rfl, rfl,
            Or.inl (Or.inl rfl), by simp [step, hss, hget, hr, startCount]⟩
        · simp only [Bool.not_eq_true] at hr
          refine ⟨{ s with hasActiveResponse := true }, ?_, rfl, rfl, rfl,
            Or.inl (Or.inl rfl), ?_⟩
          · simp [step, hss, hget, hr, alistSet_singleton]
          · simp [step, hss, hget, hr, startCount]
      | assistant =>
        exact ⟨s, by simp [step, hss, hget], rfl, rfl, rfl,
          Or.inl (Or.inl rfl), by simp [step, hss, hget, startCount]⟩
      | system =>
        exact ⟨s, by simp [step, hss, hget], rfl, rfl, rfl,
          Or.inl (Or.inl rfl), by simp [step, hss, hget, startCount]⟩
    · have hgetc : alistGet [(cid, s)] c = none :=
        alistGet_singleton_ne cid c s hc
      cases role with
      | user =>
        exact ⟨s, by simp [step, hss, hgetc], rfl, rfl, rfl,
          Or.inl (Or.inl rfl), by simp [step, hss, hgetc, startCount]⟩
      | assistant =>
        exact ⟨s, by simp [step, hss, hgetc], rfl, rfl, rfl,
          Or.inl (Or.inl rfl), by simp [step, hss, hgetc, startCount]⟩
      | system =>
        exact ⟨s, by simp [step, hss, hgetc], rfl, rfl, rfl,
          Or.inl (Or.inl rfl), by simp [step, hss, hgetc, startCount]⟩
  | aiResponseDone c =>
    by_cases hc : c = cid
    · subst hc
      refine ⟨{ s with hasActiveResponse := false }, ?_, rfl, rfl, rfl,
        Or.inl (Or.inl rfl), ?_⟩
      · simp [step, hss, hget, alistSet_singleton]
      · simp [step, hss, hget, startCount]
    · have hgetc : alistGet [(cid, s)] c = none :=
        alistGet_singleton_ne cid c s hc
      exact ⟨s, by simp [step, hss, hgetc], rfl, rfl, rfl,
        Or.inl (Or.inl rfl), by simp [step, hss, hgetc, startCount]⟩
  | aiAudioDelta c b =>
    simp only [step]
    split_ifs with hr
    · exact ⟨s, by simp [hss], rfl, rfl, rfl, Or.inl (Or.inl rfl),
        by simp [startCount]⟩
    · by_cases hc : c = cid
      · rw [hc]
        obtain ⟨s2, h1, h2, h3, h4, _, h6⟩ :=
          sendAudio_singleton st cid (resample24kHzTo8kHz b) s ctrl hss
        exact ⟨s2, h1, h2, h3, h4, Or.inr ⟨cid, b, rfl⟩, h6⟩
      · have hgetc : alistGet [(cid, s)] c = none :=
          alistGet_singleton_ne cid c s hc
        exact ⟨s, by simp [sendAudioToTelnyx, hss, hgetc], rfl, rfl, rfl,
          Or.inl (Or.inl rfl),
          by simp [sendAudioToTelnyx, hss, hgetc, startCount]⟩
  | telnyxConnect w u =>
    exact ⟨s, by simp [step, hss], rfl, rfl, rfl, Or.inl (Or.inl rfl),
      by simp [step, startCount]⟩
  | telnyxMessage w frame =>
    simp only [step]
    split_ifs with hf
    · exact ⟨s, by simp [hss], rfl, rfl, rfl, Or.inl (Or.inl rfl),
        by simp [startCount]⟩
    · rcases hm : alistGet st.wsCallMap w with _ | u
      · exact ⟨s, by simp [hss], rfl, rfl, rfl, Or.inl (Or.inl rfl),
          by simp [startCount]⟩
      · rcases u with _ | c
        · dsimp only
          rw [hss]
          rcases ht : s.telnyxWs with _ | w0
          · have hfind : List.find? (fun p => p.2.telnyxWs.isNone)
                [(cid, s)] = some (cid, s) := by
              simp [List.find?, ht]
            rw [hfind]
            dsimp only
            refine ⟨{ s with telnyxWs := some w }, ?_, rfl, rfl, rfl,
              Or.inl (Or.inl rfl), startCount_forward _ _ _ _⟩
            rw [forwardInbound_fst]
            simp [alistSet]
          · have hfind : List.find? (fun p => p.2.telnyxWs.isNone)
                [(cid, s)] = none := by
              simp [List.find?, ht]
            rw [hfind]
            exact ⟨s, by rw [hss], rfl, rfl, rfl, Or.inl (Or.inl rfl),
              by simp [startCount]⟩
        · dsimp only
          by_cases hc : c = cid
          · rw [hc, hss, hget]
            dsimp only
            rcases ht : s.telnyxWs with _ | w0
            · dsimp only
              split_ifs with hq
              · refine ⟨{ s with telnyxWs := some w, audioQueue := ([] : List (List Nat)) },
                  ?_, rfl, rfl, rfl, Or.inl (Or.inr rfl), ?_⟩
                · rw [forwardInbound_fst]
                  simp [alistSet]
                · rw [startCount_append, startCount_telnyxSends,
                    startCount_forward]
              · refine ⟨{ s with telnyxWs := some w }, ?_, rfl, rfl, rfl,
                  Or.inl (Or.inl rfl), startCount_forward _ _ _ _⟩
                rw [forwardInbound_fst]
                simp [alistSet]
            · exact ⟨s, by rw [forwardInbound_fst, hss], rfl, rfl, rfl,
                Or.inl (Or.inl rfl), startCount_forward _ _ _ _⟩
          · have hgetc : alistGet [(cid, s)] c = none :=
              alistGet_singleton_ne cid c s hc
            rw [hss, hgetc]
            dsimp only
            exact ⟨s, by rw [forwardInbound_fst, hss], rfl, rfl, rfl,
              Or.inl (Or.inl rfl), startCount_forward _ _ _ _⟩
  | telnyxClose w =>
    rcases hm : alistGet st.wsCallMap w with _ | u
    · exact ⟨s, by simp [step, hm, hss], rfl, rfl, rfl, Or.inl (Or.inl rfl),
        by simp [step, hm, startCount]⟩
    · rcases u with _ | c
      · exact ⟨s, by simp [step, hm, hss], rfl, rfl, rfl,
          Or.inl (Or.inl rfl), by simp [step, hm, startCount]⟩
      · by_cases hc : c = cid
        · subst hc
          refine ⟨{ s with telnyxWs := (none : Option Nat) }, ?_, rfl, rfl,
            rfl, Or.inl (Or.inl rfl), ?_⟩
          · simp [step, hm, hss, hget, alistSet_singleton]
          · simp [step, hm, hss, hget, startCount]
        · have hgetc : alistGet [(cid, s)] c = none :=
            alistGet_singleton_ne cid c s hc
          exact ⟨s, by simp [step, hm, hss, hgetc], rfl, rfl, rfl,
            Or.inl (Or.inl rfl), by simp [step, hm, hss, hgetc, startCount]⟩

/-- Single-call trace invariant: with `a` recording whether this call's
`call.answered` was already processed and `u` whether the AI already
confirmed configuration, running any well-formed remainder emits
`startMediaStream ctrl` exactly once if and only if the remainder
completes the answered/AI-ready pair. -/
theorem c1_master (cid ctrl : Nat) : ∀ (evs : List Event)
    (st : ServerState) (s : Session) (a u : Bool),
    (∀ ev ∈ evs, okEv cid ctrl ev) →
    st.sessions = [(cid, s)] →
    s.sessionReady = u →
    s.pendingMediaStart = (a && !u) →
    s.pendingCallControlId = (if (a && !u) = true then some ctrl else none) →
    (u = false → s.audioQueue = []) →
    countAnswered cid evs ≤ (if a = true then 0 else 1) →
    countUpdated cid evs ≤ (if u = true then 0 else 1) →
    deltasAfterReady cid u evs →
    ∃ s', (run st evs).1.sessions = [(cid, s')] ∧
      (s'.sessionReady = true ↔ (u = true ∨ 1 ≤ countUpdated cid evs)) ∧
      (s'.sessionReady = false → s'.audioQueue = []) ∧
      startCount (run st evs).2 ctrl
        = (if (a = true ∨ countAnswered cid evs = 1) ∧
             (u = true ∨ countUpdated cid evs = 1) ∧
             ¬(a = true ∧ u = true)
           then 1 else 0) := by
  intro evs
  induction evs with
  | nil =>
    intro st s a u _ hss hu hp hpc hq _ _ _
    refine ⟨s, hss, ?_, ?_, ?_⟩
    · have h1 : countUpdated cid ([] : List Event) = 0 := rfl
      rw [hu, h1]
      cases u <;> simp
    · exact fun h => hq (by rw [← hu]; exact h)
    · have h0 : countAnswered cid ([] : List Event) = 0 := rfl
      have h1 : countUpdated cid ([] : List Event) = 0 := rfl
      rw [h0, h1]
      cases a <;> cases u <;> simp [run, startCount]
  | cons ev evs ih =>
    intro st s a u hok hss hu hp hpc hq hca hcu hdel
    have hokev := hok ev (List.mem_cons_self ev evs)
    have hoktail : ∀ e ∈ evs, okEv cid ctrl e :=
      fun e he => hok e (List.mem_cons_of_mem ev he)
    have hget : alistGet st.sessions cid = some s := by
      rw [hss]; exact alistGet_singleton_self cid s
    rw [run_cons]
    by_cases hans : ∃ x, ev = Event.webhookAnswered cid x
    · obtain ⟨x, hx⟩ := hans
      subst hx
      have hxc : ctrl = x := hokev.2.symm
      subst hxc
      rw [countAnswered_cons_self cid ctrl evs] at hca
      have ha : a = false := by
        cases a
        · rfl
        · exfalso
          have hle : countAnswered cid evs + 1 ≤ 0 := by simpa using hca
          omega
      subst ha
      have hca0 : countAnswered cid evs = 0 := by
        have hle : countAnswered cid evs + 1 ≤ 1 := by simpa using hca
        omega
      rw [countUpdated_cons_other cid _ evs (by simp)] at hcu
      have hdel' := deltasAfterReady_tail_other hdel (by simp)
      cases u with
      | true =>
        have hready : s.sessionReady = true := hu
        have hstep : step st (.webhookAnswered cid ctrl)
            = (st, [Act.startMediaStream ctrl]) := by
          simp [step, hget, hready]
        rw [hstep]
        obtain ⟨s', h1, h2, h3, h4⟩ := ih st s false true hoktail hss hu hp
          hpc hq (by simp [hca0]) hcu hdel'
        refine ⟨s', h1, ?_, h3, ?_⟩
        · rw [countUpdated_cons_other cid _ evs (by simp)]
          exact h2
        · rw [startCount_append, h4,
            countAnswered_cons_self cid ctrl evs, hca0,
            countUpdated_cons_other cid _ evs (by simp)]
          simp [startCount]
      | false =>
        have hready : s.sessionReady = false := hu
        have hstep : step st (.webhookAnswered cid ctrl)
            = ({ st with sessions := [(cid,
                { s with pendingMediaStart := true,
                         pendingCallControlId := some ctrl })] }, []) := by
          simp [step, alistGet_singleton_self, hready, hss, alistSet_singleton]
        rw [hstep]
        obtain ⟨s', h1, h2, h3, h4⟩ := ih
          { st with sessions := [(cid,
              { s with pendingMediaStart := true,
                       pendingCallControlId := some ctrl })] }
          { s with pendingMediaStart := true,
                   pendingCallControlId := some ctrl } true false hoktail
          rfl hready rfl rfl (fun _ => hq rfl) (by simp [hca0]) hcu hdel'
        refine ⟨s', h1, ?_, h3, ?_⟩
        · rw [countUpdated_cons_other cid _ evs (by simp)]
          exact h2
        · rw [startCount_append, h4,
            countAnswered_cons_self cid ctrl evs, hca0,
            countUpdated_cons_other cid _ evs (by simp)]
          simp [startCount]
    · by_cases hupd : ev = Event.aiSessionUpdated cid
      · subst hupd
        rw [countUpdated_cons_self cid evs] at hcu
        have hufalse : u = false := by
          cases u
          · rfl
          · exfalso
            have hle : countUpdated cid evs + 1 ≤ 0 := by simpa using hcu
            omega
        subst hufalse
        have hcu0 : countUpdated cid evs = 0 := by
          have hle : countUpdated cid evs + 1 ≤ 1 := by simpa using hcu
          omega
        rw [countAnswered_cons_other cid _ evs (by simp)] at hca
        have hready : s.sessionReady = false := hu
        cases a with
        | true =>
          have hp' : s.pendingMediaStart = true := by simpa using hp
          have hpc' : s.pendingCallControlId = some ctrl := by simpa using hpc
          have hstep : step st (.aiSessionUpdated cid)
              = ({ st with sessions := [(cid,
                  { s with sessionReady := true, pendingMediaStart := false,
                           pendingCallControlId := none })] },
                 [Act.aiSend cid AIMsg.itemCreateGreeting,
                  Act.startMediaStream ctrl]) := by
            simp [step, alistGet_singleton_self, hp', hpc', hss, alistSet_singleton]
          rw [hstep]
          obtain ⟨s', h1, h2, h3, h4⟩ := ih
            { st with sessions := [(cid,
                { s with sessionReady := true, pendingMediaStart := false,
                         pendingCallControlId := none })] }
            { s with sessionReady := true, pendingMediaStart := false,
                     pendingCallControlId := none } true true hoktail rfl
            rfl rfl rfl (fun h => Bool.noConfusion h) hca (by simp [hcu0])
            (deltasAfterReady_true cid evs)
          refine ⟨s', h1, ?_, h3, ?_⟩
          · rw [countUpdated_cons_self cid evs]
            constructor
            · intro _
              right
              omega
            · intro _
              rw [h2]
              left
              rfl
          · rw [startCount_append, h4,
              countAnswered_cons_other cid _ evs (by simp),
              countUpdated_cons_self cid evs, hcu0]
            simp [startCount]
        | false =>
          have hp' : s.pendingMediaStart = false := by simpa using hp
          have hstep : step st (.aiSessionUpdated cid)
              = ({ st with sessions :=
                    [(cid, { s with sessionReady := true })] },
                 [Act.aiSend cid AIMsg.itemCreateGreeting]) := by
            simp [step, alistGet_singleton_self, hp', hss, alistSet_singleton]
          rw [hstep]
          obtain ⟨s', h1, h2, h3, h4⟩ := ih
            { st with sessions := [(cid, { s with sessionReady := true })] }
            { s with sessionReady := true }
            false true hoktail rfl rfl (by simpa using hp')
            (by simpa using hpc) (fun h => Bool.noConfusion h) hca
            (by simp [hcu0]) (deltasAfterReady_true cid evs)
          refine ⟨s', h1, ?_, h3, ?_⟩
          · rw [countUpdated_cons_self cid evs]
            constructor
            · intro _
              right
              omega
            · intro _
              rw [h2]
              left
              rfl
          · rw [startCount_append, h4,
              countAnswered_cons_other cid _ evs (by simp),
              countUpdated_cons_self cid evs, hcu0]
            simp [startCount]
      · have hn : c1Noise cid ev := okEv_c1Noise hokev hans hupd
        obtain ⟨s2, hsess, hr2, hp2, hpc2, hqd, hsc⟩ :=
          step_noise_singleton cid ctrl st s ev hss hn
        have hq' : u = false → s2.audioQueue = [] := by
          intro hu0
          rcases hqd with hql | ⟨c, b, hdelta⟩
          · rcases hql with hq1 | hq1
            · rw [hq1]
              exact hq hu0
            · exact hq1
          · subst hdelta
            rcases hdel [] c b evs rfl with h1 | h1
            · rw [hu0] at h1
              exact Bool.noConfusion h1
            · exact absurd h1 (by simp [countUpdated])
        obtain ⟨s', h1, h2, h3, h4⟩ := ih (step st ev).1 s2 a u hoktail hsess
          (hr2.trans hu) (hp2.trans hp) (hpc2.trans hpc) hq'
          (by rwa [countAnswered_cons_other cid ev evs
            (c1Noise_not_answered hn)] at hca)
          (by rwa [countUpdated_cons_other cid ev evs
            (c1Noise_not_updated hn)] at hcu)
          (deltasAfterReady_tail_other hdel (c1Noise_not_updated hn))
        refine ⟨s', h1, ?_, h3, ?_⟩
        · rw [countUpdated_cons_other cid ev evs (c1Noise_not_updated hn)]
          exact h2
        · rw [startCount_append, hsc, h4,
            countAnswered_cons_other cid ev evs (c1Noise_not_answered hn),
            countUpdated_cons_other cid ev evs (c1Noise_not_updated hn)]
          simp

theorem run_append (st : ServerState) (p q : List Event) :
    run st (p ++ q)
      = ((run (run st p).1 q).1, (run st p).2 ++ (run (run st p).1 q).2) := by
  induction p generalizing st with
  | nil => simp [run]
  | cons e p ih => simp [run_cons, ih, List.append_assoc]

theorem countAnswered_append (cid : Nat) (p q : List Event) :
    countAnswered cid (p ++ q)
      = countAnswered cid p + countAnswered cid q := by
  simp [countAnswered, List.filter_append]

theorem countUpdated_append (cid : Nat) (p q : List Event) :
    countUpdated cid (p ++ q)
      = countUpdated cid p + countUpdated cid q := by
  simp [countUpdated, List.filter_append]

theorem deltasAfterReady_left {cid : Nat} {u : Bool} {p q : List Event}
    (h : deltasAfterReady cid u (p ++ q)) : deltasAfterReady cid u p := by
  intro p1 c b q1 hd
  exact h p1 c b (q1 ++ q) (by rw [hd]; simp)

theorem deltasAfterReady_of_no_delta {cid : Nat} {u : Bool}
    {evs : List Event} (h : ∀ c b, Event.aiAudioDelta c b ∉ evs) :
    deltasAfterReady cid u evs := by
  intro p c b q hd
  exact absurd (by rw [hd]; simp) (h c b)

/-- The session object created by `handleCallInitiated` (366-375). -/
def initSession (ctrl : Nat) : Session :=
  { openaiWsId := 0, callControlId := ctrl, sessionReady := false,
    telnyxWs := none, pendingMediaStart := false,
    pendingCallControlId := none, hasActiveResponse := false,
    audioQueue := [] }

/-- Server state right after the first `call.initiated` webhook. -/
def postInit (cid ctrl : Nat) : ServerState :=
  { sessions := [(cid, initSession ctrl)], wsCallMap := [], openWs := [],
    aiWsOpen := [], nextWs := 1 }

theorem step_init (cid ctrl : Nat) :
    step initState (.webhookInitiated cid ctrl)
      = (postInit cid ctrl, [Act.answerCall ctrl]) := rfl

/-- C1: over any single-call trace (one `call.answered`, one AI
`session.updated`, provider deltas only after readiness), the
`startMediaStream` action is emitted exactly once; it is never emitted
over a prefix that has not yet seen both signals; and the handler
activation processing the second of the two signals emits it. -/
theorem media_start_second_signal (cid ctrl : Nat) (evs : List Event)
    (hok : ∀ ev ∈ evs, okEv cid ctrl ev)
    (hca : countAnswered cid evs = 1)
    (hcu : countUpdated cid evs = 1)
    (hdel : deltasAfterReady cid false evs) :
    startCount (run initState (Event.webhookInitiated cid ctrl :: evs)).2 ctrl
      = 1 ∧
    (∀ p q, evs = p ++ q →
      (countAnswered cid p = 0 ∨ countUpdated cid p = 0) →
      startCount
        (run initState (Event.webhookInitiated cid ctrl :: p)).2 ctrl = 0) ∧
    (∀ p e q, evs = p ++ e :: q →
      (countAnswered cid p = 0 ∨ countUpdated cid p = 0) →
      countAnswered cid (p ++ [e]) = 1 →
      countUpdated cid (p ++ [e]) = 1 →
      startCount
        (step (run initState (Event.webhookInitiated cid ctrl :: p)).1 e).2
        ctrl = 1) := by
  refine ⟨?_, ?_, ?_⟩
  · rw [run_cons, step_init]
    rw [startCount_append]
    obtain ⟨s', h1', h2', h3', h4⟩ := c1_master cid ctrl evs
      (postInit cid ctrl) (initSession ctrl) false false hok rfl rfl rfl rfl
      (fun _ => rfl) (by simpa using hca.le) (by simpa using hcu.le) hdel
    rw [h4, hca, hcu]
    simp [startCount]
  · intro p q hpq hz
    subst hpq
    rw [run_cons, step_init, startCount_append]
    have hokp : ∀ ev ∈ p, okEv cid ctrl ev :=
      fun ev he => hok ev (List.mem_append_left q he)
    rw [countAnswered_append] at hca
    rw [countUpdated_append] at hcu
    obtain ⟨s', h1', h2', h3', h4⟩ := c1_master cid ctrl p
      (postInit cid ctrl) (initSession ctrl) false false hokp rfl rfl rfl rfl
      (fun _ => rfl) (by simp; omega) (by simp; omega)
      (deltasAfterReady_left hdel)
    rw [h4]
    rcases hz with hz | hz
    · rw [hz]
      simp [startCount]
    · rw [hz]
      simp [startCount]
  · intro p e q hpq hz h1 h2
    subst hpq
    have hoksub : ∀ ev ∈ p ++ [e], okEv cid ctrl ev := by
      intro ev he
      apply hok
      rcases List.mem_append.mp he with h | h
      · exact List.mem_append_left _ h
      · have he' : ev = e := by simpa using h
        subst he'
        exact List.mem_append_right _ (by simp)
    have hdelsub : deltasAfterReady cid false ((p ++ [e]) ++ q) := by
      simpa using hdel
    have hdelpe : deltasAfterReady cid false (p ++ [e]) :=
      deltasAfterReady_left hdelsub
    have hS1 : startCount (run (postInit cid ctrl) (p ++ [e])).2 ctrl
        = 1 := by
      obtain ⟨s', h1', h2', h3', h4⟩ := c1_master cid ctrl (p ++ [e])
        (postInit cid ctrl) (initSession ctrl) false false hoksub rfl rfl rfl
        rfl (fun _ => rfl) (by simpa using h1.le) (by simpa using h2.le)
        hdelpe
      rw [h4, h1, h2]
      simp
    have hS0 : startCount (run (postInit cid ctrl) p).2 ctrl = 0 := by
      have hokp : ∀ ev ∈ p, okEv cid ctrl ev :=
        fun ev he => hoksub ev (List.mem_append_left _ he)
      rw [countAnswered_append] at h1
      rw [countUpdated_append] at h2
      obtain ⟨s', h1', h2', h3', h4⟩ := c1_master cid ctrl p
        (postInit cid ctrl) (initSession ctrl) false false hokp rfl rfl rfl
        rfl (fun _ => rfl) (by simp; omega) (by simp; omega)
        (deltasAfterReady_left hdelpe)
      rw [h4]
      rcases hz with hz | hz
      · rw [hz]
        simp
      · rw [hz]
        simp
    have hra := run_append (postInit cid ctrl) p [e]
    rw [hra, startCount_append, hS0] at hS1
    have h5 : (run (run (postInit cid ctrl) p).1 [e]).2
        = (step (run (postInit cid ctrl) p).1 e).2 := by
      simp [run]
    rw [h5] at hS1
    rw [run_cons, step_init]
    dsimp only
    omega

theorem media_start_second_signal_witness :
    startCount (run initState [Event.webhookInitiated 0 7,
        Event.webhookAnswered 0 7, Event.aiSessionUpdated 0]).2 7 = 1 ∧
    startCount (run initState [Event.webhookInitiated 0 7,
        Event.webhookAnswered 0 7]).2 7 = 0 := by
  have h := media_start_second_signal 0 7
    [Event.webhookAnswered 0 7, Event.aiSessionUpdated 0]
    (by
      intro ev hev
      rcases (by simpa using hev :
          ev = Event.webhookAnswered 0 7 ∨ ev = Event.aiSessionUpdated 0)
        with rfl | rfl
      · exact ⟨rfl, rfl⟩
      · exact rfl)
    (by decide) (by decide)
    (deltasAfterReady_of_no_delta (by intro c b; simp))
  exact ⟨h.1, h.2.1 [Event.webhookAnswered 0 7] [Event.aiSessionUpdated 0]
    rfl (Or.inr (by decide))⟩

theorem forwardInbound_snd_not_ready (st : ServerState) (cid : Nat)
    (f : List Nat) (s : Session) (hg : alistGet st.sessions cid = some s)
    (hr : s.sessionReady = false) : (forwardInbound st cid f).2 = [] := by
  simp [forwardInbound, hg, hr]

theorem forwardInbound_snd_none (st : ServerState) (cid : Nat)
    (f : List Nat) (hg : alistGet st.sessions cid = none) :
    (forwardInbound st cid f).2 = [] := by
  simp [forwardInbound, hg]

/-- Step-level C8 core: an inbound media frame against a not-ready session
with an empty outbound queue emits nothing and leaves every session field
except the relay attachment unchanged. -/
theorem step_preReady_drop (st : ServerState) (cid w : Nat) (s : Session)
    (f : List Nat) (hss : st.sessions = [(cid, s)])
    (hr : s.sessionReady = false) (hq : s.audioQueue = []) :
    (step st (.telnyxMessage w f)).2 = [] ∧
    ∃ s2, (step st (.telnyxMessage w f)).1.sessions = [(cid, s2)] ∧
      s2.openaiWsId = s.openaiWsId ∧
      s2.callControlId = s.callControlId ∧
      s2.sessionReady = false ∧
      s2.pendingMediaStart = s.pendingMediaStart ∧
      s2.pendingCallControlId = s.pendingCallControlId ∧
      s2.hasActiveResponse = s.hasActiveResponse ∧
      s2.audioQueue = [] ∧
      (s2.telnyxWs = s.telnyxWs ∨ s2.telnyxWs = some w) := by
  have hget : alistGet st.sessions cid = some s := by
    rw [hss]
    exact alistGet_singleton_self cid s
  simp only [step]
  split_ifs with hf
  · exact ⟨rfl, s, hss, rfl, rfl, hr, rfl, rfl, rfl, hq, Or.inl rfl⟩
  · rcases hm : alistGet st.wsCallMap w with _ | u
    · exact ⟨rfl, s, hss, rfl, rfl, hr, rfl, rfl, rfl, hq, Or.inl rfl⟩
    · rcases u with _ | c
      · dsimp only
        rw [hss]
        rcases ht : s.telnyxWs with _ | w0
        · have hfind : List.find? (fun p => p.2.telnyxWs.isNone)
              [(cid, s)] = some (cid, s) := by
            simp [List.find?, ht]
          rw [hfind]
          dsimp only
          rw [alistSet_singleton]
          refine ⟨?_, { s with telnyxWs := some w }, ?_, rfl, rfl, hr, rfl,
            rfl, rfl, hq, Or.inr rfl⟩
          · exact forwardInbound_snd_not_ready _ _ _
              { s with telnyxWs := some w }
              (alistGet_singleton_self cid _) hr
          · rw [forwardInbound_fst]
        · have hfind : List.find? (fun p => p.2.telnyxWs.isNone)
              [(cid, s)] = none := by
            simp [List.find?, ht]
          rw [hfind]
          exact ⟨rfl, s, hss, rfl, rfl, hr, rfl, rfl, rfl, hq, Or.inl ht⟩
      · dsimp only
        by_cases hc : c = cid
        · rw [hc, hss, alistGet_singleton_self]
          dsimp only
          rcases ht : s.telnyxWs with _ | w0
          · dsimp only
            split_ifs with hcond
            · exact absurd hcond (by simp [hq])
            · rw [alistSet_singleton]
              refine ⟨?_, { s with telnyxWs := some w }, ?_, rfl, rfl, hr,
                rfl, rfl, rfl, hq, Or.inr rfl⟩
              · exact forwardInbound_snd_not_ready _ _ _
                  { s with telnyxWs := some w }
                  (alistGet_singleton_self cid _) hr
              · rw [forwardInbound_fst]
          · exact ⟨forwardInbound_snd_not_ready _ _ _ s hget hr, s,
              by rw [forwardInbound_fst, hss], rfl, rfl, hr, rfl, rfl, rfl,
              hq, Or.inl ht⟩
        · have hgetc : alistGet [(cid, s)] c = none :=
            alistGet_singleton_ne cid c s hc
          rw [hss, hgetc]
          dsimp only
          exact ⟨forwardInbound_snd_none st c f (by rw [hss]; exact hgetc),
            s, by rw [forwardInbound_fst, hss], rfl, rfl, hr, rfl, rfl, rfl,
            hq, Or.inl rfl⟩

/-- C8: over any single-call trace in which the AI has not yet confirmed
the session configuration (`sessionReady` still false), an inbound binary
media frame is silently dropped: the handler emits no action at all (in
particular nothing to the AI client), the frame is not buffered anywhere,
and every session field except the relay-attachment reference `telnyxWs`
is unchanged. -/
theorem pre_ready_frames_dropped (cid ctrl : Nat) (evs : List Event)
    (hok : ∀ ev ∈ evs, okEv cid ctrl ev)
    (hca : countAnswered cid evs ≤ 1)
    (hcu : countUpdated cid evs ≤ 1)
    (hdel : deltasAfterReady cid false evs)
    (hnr : countUpdated cid evs = 0)
    (w : Nat) (f : List Nat) :
    ∃ s, (run initState (Event.webhookInitiated cid ctrl :: evs)).1.sessions
        = [(cid, s)] ∧
      s.sessionReady = false ∧
      (step (run initState (Event.webhookInitiated cid ctrl :: evs)).1
          (Event.telnyxMessage w f)).2 = [] ∧
      ∃ s2,
        (step (run initState (Event.webhookInitiated cid ctrl :: evs)).1
            (Event.telnyxMessage w f)).1.sessions = [(cid, s2)] ∧
        s2.openaiWsId = s.openaiWsId ∧
        s2.callControlId = s.callControlId ∧
        s2.sessionReady = false ∧
        s2.pendingMediaStart = s.pendingMediaStart ∧
        s2.pendingCallControlId = s.pendingCallControlId ∧
        s2.hasActiveResponse = s.hasActiveResponse ∧
        s2.audioQueue = s.audioQueue ∧
        (s2.telnyxWs = s.telnyxWs ∨ s2.telnyxWs = some w) := by
  obtain ⟨s, h1, h2, h3, _⟩ := c1_master cid ctrl evs
    (postInit cid ctrl) (initSession ctrl) false false hok rfl rfl rfl rfl
    (fun _ => rfl) (by simpa using hca) (by simpa using hcu) hdel
  have hready : s.sessionReady = false := by
    cases hsr : s.sessionReady
    · rfl
    · exfalso
      rcases h2.mp hsr with h | h
      · exact Bool.noConfusion h
      · omega
  have hqe : s.audioQueue = [] := h3 hready
  have hR : (run initState (Event.webhookInitiated cid ctrl :: evs)).1
      = (run (postInit cid ctrl) evs).1 := by
    rw [run_cons, step_init]
  obtain ⟨ha, s2, hb, hc1, hc2, hc3, hc4, hc5, hc6, hc7, hc8⟩ :=
    step_preReady_drop (run (postInit cid ctrl) evs).1 cid w s f h1
      hready hqe
  rw [hR]
  exact ⟨s, h1, hready, ha, s2, hb, hc1, hc2, hc3, hc4, hc5, hc6,
    by rw [hc7, hqe], hc8⟩

theorem pre_ready_frames_dropped_witness :
    (step (run initState [Event.webhookInitiated 0 7,
        Event.webhookAnswered 0 7]).1 (Event.telnyxMessage 3 [1, 1])).2
      = [] := by
  obtain ⟨s, h1, h2, h3, _⟩ := pre_ready_frames_dropped 0 7
    [Event.webhookAnswered 0 7]
    (by
      intro ev hev
      have he : ev = Event.webhookAnswered 0 7 := by simpa using hev
      subst he
      exact ⟨rfl, rfl⟩)
    (by decide) (by decide)
    (deltasAfterReady_of_no_delta (by intro c b; simp))
    (by decide) 3 [1, 1]
  exact h3

/-- Outbound frames actually written to a telephony media socket, in
emission order. -/
def relayedFrames (acts : List Act) : List (List Nat) :=
  acts.filterMap (fun a => match a with
    | .telnyxSend _ b => some b
    | _ => none)

/-- Outbound frames produced by the AI audio deltas of a trace (after
downsampling, dropping empty results), in arrival order. -/
def producedFrames (cid : Nat) (evs : List Event) : List (List Nat) :=
  evs.filterMap (fun ev => match ev with
    | .aiAudioDelta c b =>
      if c = cid ∧ (resample24kHzTo8kHz b).length ≠ 0
      then some (resample24kHzTo8kHz b) else none
    | _ => none)

/-- Single-call well-formedness for the queue-order analysis: no second
`call.initiated`, no hangup or AI close for this call, and every media
socket connects with the call id in its URL (the named attach path). -/
def okC4 (cid : Nat) : Event → Prop
  | .webhookInitiated _ _ => False
  | .webhookHangup c => ¬ c = cid
  | .aiClosed c _ => ¬ c = cid
  | .telnyxConnect _ u => u = some cid
  | _ => True

theorem relayedFrames_append (a b : List Act) :
    relayedFrames (a ++ b) = relayedFrames a ++ relayedFrames b := by
  simp [relayedFrames, List.filterMap_append]

theorem relayedFrames_cons_send (w : Nat) (b : List Nat) (l : List Act) :
    relayedFrames (Act.telnyxSend w b :: l) = b :: relayedFrames l := by
  simp [relayedFrames, List.filterMap_cons]

theorem relayedFrames_telnyxSends (w : Nat) (q : List (List Nat)) :
    relayedFrames (q.map (Act.telnyxSend w)) = q := by
  induction q with
  | nil => rfl
  | cons b q ih => simpa [relayedFrames, List.filterMap_cons] using ih

theorem relayedFrames_forward (st : ServerState) (c : Nat) (f : List Nat) :
    relayedFrames (forwardInbound st c f).2 = [] := by
  rcases hg : alistGet st.sessions c with _ | s
  · simp [forwardInbound, hg, relayedFrames]
  · simp only [forwardInbound, hg]
    split_ifs <;> simp [relayedFrames]

theorem producedFrames_cons_nondelta (cid : Nat) (ev : Event)
    (evs : List Event) (h : ∀ c b, ¬ ev = Event.aiAudioDelta c b) :
    producedFrames cid (ev :: evs) = producedFrames cid evs := by
  cases ev
  case aiAudioDelta c b => exact absurd rfl (h c b)
  all_goals simp [producedFrames, List.filterMap_cons]

theorem producedFrames_cons_delta (cid c : Nat) (b : List Nat)
    (evs : List Event) :
    producedFrames cid (.aiAudioDelta c b :: evs)
      = (if c = cid ∧ (resample24kHzTo8kHz b).length ≠ 0
         then resample24kHzTo8kHz b :: producedFrames cid evs
         else producedFrames cid evs) := by
  simp only [producedFrames, List.filterMap_cons]
  split_ifs with h <;> rfl

/-- C4 counterexample: with a queued frame and a fallback (no-URL-id)
socket attach - which does not flush - the next audio delta is written to
the socket BEFORE the earlier queued frame: the relayed sequence reverses
the production order. -/
theorem relay_order_violated_cex :
    producedFrames 0 [Event.aiAudioDelta 0 [1, 0, 0, 0, 0, 0],
        Event.telnyxConnect 5 none, Event.telnyxMessage 5 [9],
        Event.aiAudioDelta 0 [2, 0, 0, 0, 0, 0]]
      = [[1, 0], [2, 0]] ∧
    relayedFrames (run initState [Event.webhookInitiated 0 7,
        Event.aiAudioDelta 0 [1, 0, 0, 0, 0, 0],
        Event.telnyxConnect 5 none, Event.telnyxMessage 5 [9],
        Event.aiAudioDelta 0 [2, 0, 0, 0, 0, 0]]).2
      = [[2, 0], [1, 0]] := by decide

/-- Queue-order invariant for single-call traces whose media sockets all
connect with the call id in the URL: the frames written to the telephony
socket followed by the still-queued frames equal the initial queue
followed by the produced frames - no loss, duplication or reordering. -/
theorem c4_master (cid : Nat) : ∀ (evs : List Event) (st : ServerState)
    (s : Session),
    (∀ ev ∈ evs, okC4 cid ev) →
    st.sessions = [(cid, s)] →
    (∀ w v, alistGet st.wsCallMap w = some v →
      v = some cid ∧ w ∈ st.openWs) →
    (∀ w, s.telnyxWs = some w →
      alistGet st.wsCallMap w = some (some cid) ∧ s.audioQueue = []) →
    ∃ s', (run st evs).1.sessions = [(cid, s')] ∧
      relayedFrames (run st evs).2 ++ s'.audioQueue
        = s.audioQueue ++ producedFrames cid evs := by
  intro evs
  induction evs with
  | nil =>
    intro st s _ hss _ _
    exact ⟨s, hss, by simp [run, relayedFrames, producedFrames]⟩
  | cons ev evs ih =>
    intro st s hok hss hmap hatt
    have hokev := hok ev (List.mem_cons_self ev evs)
    have hoktail : ∀ e ∈ evs, okC4 cid e :=
      fun e he => hok e (List.mem_cons_of_mem ev he)
    have hget : alistGet st.sessions cid = some s := by
      rw [hss]
      exact alistGet_singleton_self cid s
    rw [run_cons]
    cases ev with
    | webhookInitiated c x => exact hokev.elim
    | webhookAnswered c x =>
      by_cases hc : c = cid
      · have hc9 : cid = c := hc.symm
        subst hc9
        rcases hrd : s.sessionReady with _ | _
        · have hstep : step st (.webhookAnswered cid x)
              = ({ st with sessions := [(cid,
                  { s with pendingMediaStart := true,
                           pendingCallControlId := some x })] }, []) := by
            simp [step, alistGet_singleton_self, hrd, hss, alistSet_singleton]
          rw [hstep]
          obtain ⟨s', h1, h2⟩ := ih
            { st with sessions := [(cid,
                { s with pendingMediaStart := true,
                         pendingCallControlId := some x })] }
            { s with pendingMediaStart := true,
                     pendingCallControlId := some x } hoktail rfl hmap hatt
          refine ⟨s', h1, ?_⟩
          rw [producedFrames_cons_nondelta _ _ _ (by simp), List.nil_append]
          exact h2
        · have hstep : step st (.webhookAnswered cid x)
              = (st, [Act.startMediaStream x]) := by
            simp [step, hget, hrd]
          rw [hstep]
          obtain ⟨s', h1, h2⟩ := ih st s hoktail hss hmap hatt
          refine ⟨s', h1, ?_⟩
          rw [producedFrames_cons_nondelta _ _ _ (by simp),
            relayedFrames_append]
          have hrf : relayedFrames [Act.startMediaStream x] = [] := rfl
          rw [hrf, List.nil_append]
          exact h2
      · have hgetc : alistGet st.sessions c = none := by
          rw [hss]
          exact alistGet_singleton_ne cid c s hc
        have hstep : step st (.webhookAnswered c x) = (st, []) := by
          simp [step, hgetc]
        rw [hstep]
        obtain ⟨s', h1, h2⟩ := ih st s hoktail hss hmap hatt
        refine ⟨s', h1, ?_⟩
        rw [producedFrames_cons_nondelta _ _ _ (by simp), List.nil_append]
        exact h2
    | webhookHangup c =>
      have hgetc : alistGet st.sessions c = none := by
        rw [hss]
        exact alistGet_singleton_ne cid c s hokev
      have hstep : step st (.webhookHangup c) = (st, []) := by
        simp [step, hgetc]
      rw [hstep]
      obtain ⟨s', h1, h2⟩ := ih st s hoktail hss hmap hatt
      refine ⟨s', h1, ?_⟩
      rw [producedFrames_cons_nondelta _ _ _ (by simp), List.nil_append]
      exact h2
    | aiOpened c w =>
      have hstep : step st (.aiOpened c w)
          = ({ st with aiWsOpen := w :: st.aiWsOpen },
             [Act.aiSend c AIMsg.sessionUpdate]) := by
        simp [step]
      rw [hstep]
      obtain ⟨s', h1, h2⟩ := ih { st with aiWsOpen := w :: st.aiWsOpen } s
        hoktail hss hmap hatt
      refine ⟨s', h1, ?_⟩
      rw [producedFrames_cons_nondelta _ _ _ (by simp), relayedFrames_append]
      have hrf : relayedFrames [Act.aiSend c AIMsg.sessionUpdate] = [] := rfl
      rw [hrf, List.nil_append]
      exact h2
    | aiSessionUpdated c =>
      by_cases hc : c = cid
      · have hc9 : cid = c := hc.symm
        subst hc9
        rcases hpm : s.pendingMediaStart with _ | _
        · have hstep : step st (.aiSessionUpdated cid)
              = ({ st with sessions :=
                    [(cid, { s with sessionReady := true })] },
                 [Act.aiSend cid AIMsg.itemCreateGreeting]) := by
            simp [step, alistGet_singleton_self, hpm, hss, alistSet_singleton]
          rw [hstep]
          obtain ⟨s', h1, h2⟩ := ih
            { st with sessions := [(cid, { s with sessionReady := true })] }
            { s with sessionReady := true }
            hoktail rfl hmap hatt
          refine ⟨s', h1, ?_⟩
          rw [producedFrames_cons_nondelta _ _ _ (by simp),
            relayedFrames_append]
          have hrf : relayedFrames [Act.aiSend cid AIMsg.itemCreateGreeting]
              = [] := rfl
          rw [hrf, List.nil_append]
          exact h2
        · rcases hpc : s.pendingCallControlId with _ | pc
          · have hstep : step st (.aiSessionUpdated cid)
                = ({ st with sessions :=
                      [(cid, { s with sessionReady := true })] },
                   [Act.aiSend cid AIMsg.itemCreateGreeting]) := by
              simp [step, alistGet_singleton_self, hpm, hpc, hss, alistSet_singleton]
            rw [hstep]
            obtain ⟨s', h1, h2⟩ := ih
              { st with sessions :=
                  [(cid, { s with sessionReady := true })] }
              { s with sessionReady := true }
              hoktail rfl hmap hatt
            refine ⟨s', h1, ?_⟩
            rw [producedFrames_cons_nondelta _ _ _ (by simp),
              relayedFrames_append]
            have hrf : relayedFrames
                [Act.aiSend cid AIMsg.itemCreateGreeting] = [] := rfl
            rw [hrf, List.nil_append]
            exact h2
          · have hstep : step st (.aiSessionUpdated cid)
                = ({ st with sessions := [(cid,
                    { s with sessionReady := true,
                             pendingMediaStart := false,
                             pendingCallControlId := none })] },
                   [Act.aiSend cid AIMsg.itemCreateGreeting,
                    Act.startMediaStream pc]) := by
              simp [step, alistGet_singleton_self, hpm, hpc, hss, alistSet_singleton]
            rw [hstep]
            obtain ⟨s', h1, h2⟩ := ih
              { st with sessions := [(cid,
                  { s with sessionReady := true, pendingMediaStart := false,
                           pendingCallControlId := none })] }
              { s with sessionReady := true, pendingMediaStart := false,
                       pendingCallControlId := none } hoktail rfl hmap hatt
            refine ⟨s', h1, ?_⟩
            rw [producedFrames_cons_nondelta _ _ _ (by simp),
              relayedFrames_append]
            have hrf : relayedFrames
                [Act.aiSend cid AIMsg.itemCreateGreeting,
                 Act.startMediaStream pc] = [] := rfl
            rw [hrf, List.nil_append]
            exact h2
      · have hgetc : alistGet st.sessions c = none := by
          rw [hss]
          exact alistGet_singleton_ne cid c s hc
        have hstep : step st (.aiSessionUpdated c) = (st, []) := by
          simp [step, hgetc]
        rw [hstep]
        obtain ⟨s', h1, h2⟩ := ih st s hoktail hss hmap hatt
        refine ⟨s', h1, ?_⟩
        rw [producedFrames_cons_nondelta _ _ _ (by simp), List.nil_append]
        exact h2
    | aiItemCreated c role =>
      by_cases hc : c = cid
      · have hc9 : cid = c := hc.symm
        subst hc9
        cases role with
        | user =>
          rcases hha : s.hasActiveResponse with _ | _
          · have hstep : step st (.aiItemCreated cid .user)
                = ({ st with sessions :=
                      [(cid, { s with hasActiveResponse := true })] },
                   [Act.aiSend cid AIMsg.responseCreate]) := by
              simp [step, alistGet_singleton_self, hha, hss, alistSet_singleton]
            rw [hstep]
            obtain ⟨s', h1, h2⟩ := ih
              { st with sessions :=
                  [(cid, { s with hasActiveResponse := true })] }
              { s with hasActiveResponse := true }
              hoktail rfl hmap hatt
            refine ⟨s', h1, ?_⟩
            rw [producedFrames_cons_nondelta _ _ _ (by simp),
              relayedFrames_append]
            have hrf : relayedFrames [Act.aiSend cid AIMsg.responseCreate]
                = [] := rfl
            rw [hrf, List.nil_append]
            exact h2
          · have hstep : step st (.aiItemCreated cid .user) = (st, []) := by
              simp [step, hget, hha]
            rw [hstep]
            obtain ⟨s', h1, h2⟩ := ih st s hoktail hss hmap hatt
            refine ⟨s', h1, ?_⟩
            rw [producedFrames_cons_nondelta _ _ _ (by simp),
              List.nil_append]
            exact h2
        | assistant =>
          have hstep : step st (.aiItemCreated cid .assistant)
              = (st, []) := by
            simp [step, hget]
          rw [hstep]
          obtain ⟨s', h1, h2⟩ := ih st s hoktail hss hmap hatt
          refine ⟨s', h1, ?_⟩
          rw [producedFrames_cons_nondelta _ _ _ (by simp), List.nil_append]
          exact h2
        | system =>
          have hstep : step st (.aiItemCreated cid .system)
              = (st, []) := by
            simp [step, hget]
          rw [hstep]
          obtain ⟨s', h1, h2⟩ := ih st s hoktail hss hmap hatt
          refine ⟨s', h1, ?_⟩
          rw [producedFrames_cons_nondelta _ _ _ (by simp), List.nil_append]
          exact h2
      · have hgetc : alistGet st.sessions c = none := by
          rw [hss]
          exact alistGet_singleton_ne cid c s hc
        have hstep : step st (.aiItemCreated c role) = (st, []) := by
          simp [step, hgetc]
        rw [hstep]
        obtain ⟨s', h1, h2⟩ := ih st s hoktail hss hmap hatt
        refine ⟨s', h1, ?_⟩
        rw [producedFrames_cons_nondelta _ _ _ (by simp), List.nil_append]
        exact h2
    | aiResponseDone c =>
      by_cases hc : c = cid
      · have hc9 : cid = c := hc.symm
        subst hc9
        have hstep : step st (.aiResponseDone cid)
            = ({ st with sessions :=
                  [(cid, { s with hasActiveResponse := false })] }, []) := by
          simp [step, alistGet_singleton_self, hss, alistSet_singleton]
        rw [hstep]
        obtain ⟨s', h1, h2⟩ := ih
          { st with sessions :=
              [(cid, { s with hasActiveResponse := false })] }
          { s with hasActiveResponse := false }
          hoktail rfl hmap hatt
        refine ⟨s', h1, ?_⟩
        rw [producedFrames_cons_nondelta _ _ _ (by simp), List.nil_append]
        exact h2
      · have hgetc : alistGet st.sessions c = none := by
          rw [hss]
          exact alistGet_singleton_ne cid c s hc
        have hstep : step st (.aiResponseDone c) = (st, []) := by
          simp [step, hgetc]
        rw [hstep]
        obtain ⟨s', h1, h2⟩ := ih st s hoktail hss hmap hatt
        refine ⟨s', h1, ?_⟩
        rw [producedFrames_cons_nondelta _ _ _ (by simp), List.nil_append]
        exact h2
    | aiClosed c w =>
      have hgetc : alistGet st.sessions c = none := by
        rw [hss]
        exact alistGet_singleton_ne cid c s hokev
      have hstep : step st (.aiClosed c w)
          = ({ st with
                aiWsOpen := st.aiWsOpen.filter (fun w' => w' ≠ w) }, []) := by
        simp [step, hgetc]
      rw [hstep]
      obtain ⟨s', h1, h2⟩ := ih
        { st with aiWsOpen := st.aiWsOpen.filter (fun w' => w' ≠ w) } s
        hoktail hss hmap hatt
      refine ⟨s', h1, ?_⟩
      rw [producedFrames_cons_nondelta _ _ _ (by simp), List.nil_append]
      exact h2
    | aiAudioDelta c b =>
      by_cases hc : c = cid
      · have hc9 : cid = c := hc.symm
        subst hc9
        by_cases hb : (resample24kHzTo8kHz b).length = 0
        · have hstep : step st (.aiAudioDelta cid b) = (st, []) := by
            simp [step, hb]
          rw [hstep]
          obtain ⟨s', h1, h2⟩ := ih st s hoktail hss hmap hatt
          refine ⟨s', h1, ?_⟩
          rw [producedFrames_cons_delta, if_neg (by simp [hb]),
            List.nil_append]
          exact h2
        · rcases ht : s.telnyxWs with _ | w
          · have hstep : step st (.aiAudioDelta cid b)
                = ({ st with sessions := [(cid, { s with audioQueue :=
                    s.audioQueue ++ [resample24kHzTo8kHz b] })] }, []) := by
              simp [step, hb, sendAudioToTelnyx, alistGet_singleton_self, ht, hss,
                alistSet_singleton]
            rw [hstep]
            obtain ⟨s', h1, h2⟩ := ih
              { st with sessions := [(cid, { s with audioQueue :=
                  s.audioQueue ++ [resample24kHzTo8kHz b] })] }
              { s with audioQueue :=
                  s.audioQueue ++ [resample24kHzTo8kHz b] } hoktail rfl hmap
              (fun w' hw' => Option.noConfusion (ht.symm.trans hw'))
            refine ⟨s', h1, ?_⟩
            rw [producedFrames_cons_delta, if_pos ⟨rfl, hb⟩,
              List.nil_append, h2]
            simp
          · have hws := hatt w ht
            have hwo : w ∈ st.openWs := (hmap w (some cid) hws.1).2
            have hstep : step st (.aiAudioDelta cid b)
                = ({ st with sessions := [(cid,
                      { s with audioQueue := ([] : List (List Nat)) })] },
                   Act.telnyxSend w (resample24kHzTo8kHz b)
                     :: s.audioQueue.map (Act.telnyxSend w)) := by
              simp [step, hb, sendAudioToTelnyx, alistGet_singleton_self, ht, hwo, hss,
                alistSet_singleton]
            rw [hstep]
            obtain ⟨s', h1, h2⟩ := ih
              { st with sessions := [(cid,
                  { s with audioQueue := ([] : List (List Nat)) })] }
              { s with audioQueue := ([] : List (List Nat)) } hoktail rfl
              hmap (fun w' hw' => ⟨(hatt w' hw').1, rfl⟩)
            refine ⟨s', h1, ?_⟩
            rw [producedFrames_cons_delta, if_pos ⟨rfl, hb⟩, hws.2]
            have h2' : relayedFrames (run { st with sessions := [(cid,
                { s with audioQueue := ([] : List (List Nat)) })] } evs).2
                ++ s'.audioQueue = producedFrames cid evs := by
              simpa using h2
            simp only [List.map_nil, List.cons_append, List.nil_append,
              relayedFrames_cons_send]
            rw [h2']
      · by_cases hb : (resample24kHzTo8kHz b).length = 0
        · have hstep : step st (.aiAudioDelta c b) = (st, []) := by
            simp [step, hb]
          rw [hstep]
          obtain ⟨s', h1, h2⟩ := ih st s hoktail hss hmap hatt
          refine ⟨s', h1, ?_⟩
          rw [producedFrames_cons_delta, if_neg (by simp [hb]),
            List.nil_append]
          exact h2
        · have hgetc : alistGet st.sessions c = none := by
            rw [hss]
            exact alistGet_singleton_ne cid c s hc
          have hstep : step st (.aiAudioDelta c b) = (st, []) := by
            simp [step, hb, sendAudioToTelnyx, hgetc]
          rw [hstep]
          obtain ⟨s', h1, h2⟩ := ih st s hoktail hss hmap hatt
          refine ⟨s', h1, ?_⟩
          rw [producedFrames_cons_delta, if_neg (by simp [hc]),
            List.nil_append]
          exact h2
    | telnyxConnect w u =>
      have hu : u = some cid := hokev
      subst hu
      have hstep : step st (.telnyxConnect w (some cid))
          = ({ st with wsCallMap := alistSet st.wsCallMap w (some cid),
                       openWs := w :: st.openWs }, []) := by
        simp [step]
      rw [hstep]
      obtain ⟨s', h1, h2⟩ := ih
        { st with wsCallMap := alistSet st.wsCallMap w (some cid),
                  openWs := w :: st.openWs } s hoktail hss
        (by
          intro w' v hv
          by_cases hww : w = w'
          · subst hww
            rw [alistGet_set_self] at hv
            exact ⟨(Option.some.inj hv).symm, List.mem_cons_self _ _⟩
          · rw [alistGet_set_ne _ _ _ _ hww] at hv
            obtain ⟨hv1, hv2⟩ := hmap w' v hv
            exact ⟨hv1, List.mem_cons_of_mem _ hv2⟩)
        (by
          intro w0 h0
          obtain ⟨ha, hb⟩ := hatt w0 h0
          refine ⟨?_, hb⟩
          by_cases hww : w = w0
          · subst hww
            rw [alistGet_set_self]
          · rw [alistGet_set_ne _ _ _ _ hww]
            exact ha)
      refine ⟨s', h1, ?_⟩
      rw [producedFrames_cons_nondelta _ _ _ (by simp), List.nil_append]
      exact h2
    | telnyxMessage w f =>
      simp only [step]
      split_ifs with hf
      · obtain ⟨s', h1, h2⟩ := ih st s hoktail hss hmap hatt
        refine ⟨s', h1, ?_⟩
        rw [producedFrames_cons_nondelta _ _ _ (by simp), List.nil_append]
        exact h2
      · rcases hm : alistGet st.wsCallMap w with _ | u
        · dsimp only
          obtain ⟨s', h1, h2⟩ := ih st s hoktail hss hmap hatt
          refine ⟨s', h1, ?_⟩
          rw [producedFrames_cons_nondelta _ _ _ (by simp),
            List.nil_append]
          exact h2
        · obtain ⟨hu, hwo⟩ := hmap w u hm
          subst hu
          dsimp only
          rw [hss, alistGet_singleton_self]
          dsimp only
          rcases ht : s.telnyxWs with _ | w0
          · dsimp only
            split_ifs with hcond
            · rw [forwardInbound_fst, alistSet_singleton]
              obtain ⟨s', h1, h2⟩ := ih
                { st with sessions := [(cid,
                    { s with telnyxWs := some w,
                             audioQueue := ([] : List (List Nat)) })] }
                { s with telnyxWs := some w,
                         audioQueue := ([] : List (List Nat)) } hoktail rfl
                hmap
                (by
                  intro w' hw'
                  have hwq : w = w' := Option.some.inj hw'
                  subst hwq
                  exact ⟨hm, rfl⟩)
              refine ⟨s', h1, ?_⟩
              rw [producedFrames_cons_nondelta _ _ _ (by simp),
                relayedFrames_append, relayedFrames_append,
                relayedFrames_telnyxSends, relayedFrames_forward,
                List.append_nil, List.append_assoc]
              have h2' : relayedFrames (run { st with sessions := [(cid,
                  { s with telnyxWs := some w,
                           audioQueue := ([] : List (List Nat)) })] }
                    evs).2 ++ s'.audioQueue = producedFrames cid evs := by
                simpa using h2
              rw [h2']
            · have hlen : s.audioQueue.length = 0 := by
                by_contra hne
                exact hcond ⟨hne, hwo⟩
              have hqe : s.audioQueue = [] := List.length_eq_zero.mp hlen
              rw [forwardInbound_fst, alistSet_singleton]
              obtain ⟨s', h1, h2⟩ := ih
                { st with sessions :=
                    [(cid, { s with telnyxWs := some w })] }
                { s with telnyxWs := some w } hoktail rfl hmap
                (by
                  intro w' hw'
                  have hwq : w = w' := Option.some.inj hw'
                  subst hwq
                  exact ⟨hm, hqe⟩)
              refine ⟨s', h1, ?_⟩
              rw [producedFrames_cons_nondelta _ _ _ (by simp),
                relayedFrames_append, relayedFrames_forward,
                List.nil_append]
              exact h2
          · rw [forwardInbound_fst]
            obtain ⟨s', h1, h2⟩ := ih st s hoktail hss hmap hatt
            refine ⟨s', h1, ?_⟩
            rw [producedFrames_cons_nondelta _ _ _ (by simp),
              relayedFrames_append, relayedFrames_forward,
              List.nil_append]
            exact h2
    | telnyxClose w =>
      rcases hm : alistGet st.wsCallMap w with _ | u
      · have hstep : step st (.telnyxClose w)
            = ({ st with
                  wsCallMap := alistDelete st.wsCallMap w,
                  openWs := st.openWs.filter (fun w' => w' ≠ w) }, []) := by
          simp [step, hm]
        rw [hstep]
        obtain ⟨s', h1, h2⟩ := ih
          { st with wsCallMap := alistDelete st.wsCallMap w,
                    openWs := st.openWs.filter (fun w' => w' ≠ w) } s
          hoktail hss
          (by
            intro w' v hv
            by_cases hww : w = w'
            · subst hww
              rw [alistGet_delete_self] at hv
              exact Option.noConfusion hv
            · rw [alistGet_delete_ne _ _ _ hww] at hv
              obtain ⟨hv1, hv2⟩ := hmap w' v hv
              refine ⟨hv1, List.mem_filter.mpr ⟨hv2, ?_⟩⟩
              have hne9 : ¬ w' = w := fun he => hww he.symm
              simp [hne9]
            )
          (by
            intro w0 h0
            obtain ⟨ha, hb⟩ := hatt w0 h0
            have hne : ¬ w = w0 := by
              intro he
              rw [← he, hm] at ha
              exact Option.noConfusion ha
            refine ⟨?_, hb⟩
            rw [alistGet_delete_ne _ _ _ hne]
            exact ha)
        refine ⟨s', h1, ?_⟩
        rw [producedFrames_cons_nondelta _ _ _ (by simp), List.nil_append]
        exact h2
      · rcases u with _ | c
        · obtain ⟨hcc, _⟩ := hmap w none hm
          exact Option.noConfusion hcc
        · obtain ⟨hcc, hwo⟩ := hmap w (some c) hm
          have hc : c = cid := Option.some.inj hcc
          have hc9 : cid = c := hc.symm
          subst hc9
          have hstep : step st (.telnyxClose w)
              = ({ st with
                    sessions := [(cid, { s with telnyxWs := none })],
                    wsCallMap := alistDelete st.wsCallMap w,
                    openWs := st.openWs.filter (fun w' => w' ≠ w) },
                 []) := by
            simp [step, hm, alistGet_singleton_self, hss, alistSet_singleton]
          rw [hstep]
          obtain ⟨s', h1, h2⟩ := ih
            { st with sessions := [(cid, { s with telnyxWs := none })],
                      wsCallMap := alistDelete st.wsCallMap w,
                      openWs := st.openWs.filter (fun w' => w' ≠ w) }
            { s with telnyxWs := none } hoktail rfl
            (by
              intro w' v hv
              by_cases hww : w = w'
              · subst hww
                rw [alistGet_delete_self] at hv
                exact Option.noConfusion hv
              · rw [alistGet_delete_ne _ _ _ hww] at hv
                obtain ⟨hv1, hv2⟩ := hmap w' v hv
                refine ⟨hv1, List.mem_filter.mpr ⟨hv2, ?_⟩⟩
                have hne9 : ¬ w' = w := fun he => hww he.symm
                simp [hne9])
            (fun w0 h0 => Option.noConfusion h0)
          refine ⟨s', h1, ?_⟩
          rw [producedFrames_cons_nondelta _ _ _ (by simp),
            List.nil_append]
          exact h2

/-- With no media socket attached, every audio delta grows the queue by
one frame: the queue length is unbounded over reachable states. -/
theorem queue_pump (cid : Nat) (b : List Nat)
    (hb : ¬ (resample24kHzTo8kHz b).length = 0) :
    ∀ (n : Nat) (st : ServerState) (s : Session),
    st.sessions = [(cid, s)] → s.telnyxWs = none →
    ∃ s', (run st (List.replicate n (Event.aiAudioDelta cid b))).1.sessions
        = [(cid, s')] ∧
      s'.audioQueue.length = s.audioQueue.length + n := by
  intro n
  induction n with
  | zero =>
    intro st s hss _
    exact ⟨s, by simpa [run] using hss, by simp⟩
  | succ n ihn =>
    intro st s hss ht
    rw [List.replicate_succ, run_cons]
    have hstep : step st (.aiAudioDelta cid b)
        = ({ st with sessions := [(cid, { s with audioQueue :=
            s.audioQueue ++ [resample24kHzTo8kHz b] })] }, []) := by
      simp [step, hb, sendAudioToTelnyx, alistGet_singleton_self, ht, hss,
        alistSet_singleton]
    rw [hstep]
    obtain ⟨s', h1, h2⟩ := ihn
      { st with sessions := [(cid, { s with audioQueue :=
          s.audioQueue ++ [resample24kHzTo8kHz b] })] }
      { s with audioQueue := s.audioQueue ++ [resample24kHzTo8kHz b] }
      rfl ht
    refine ⟨s', h1, ?_⟩
    rw [h2]
    simp only [List.length_append, List.length_singleton]
    omega

/-- C4 amended: when every media socket connects with the call id in its
URL (so only the flushing named-attach path runs), the relayed outbound
frames followed by the still-queued ones are exactly the produced frames
in order - no loss, duplication or reordering; but the queue is NOT
bounded: while no socket is attached it grows by one frame per delta,
exceeding any bound. -/
theorem relay_order_named_attach (cid ctrl : Nat) (evs : List Event)
    (hok : ∀ ev ∈ evs, okC4 cid ev) :
    (∃ s', (run initState
          (Event.webhookInitiated cid ctrl :: evs)).1.sessions
        = [(cid, s')] ∧
      relayedFrames (run initState
          (Event.webhookInitiated cid ctrl :: evs)).2 ++ s'.audioQueue
        = producedFrames cid evs) ∧
    (∀ B, ∃ s', (run initState (Event.webhookInitiated cid ctrl ::
          List.replicate B
            (Event.aiAudioDelta cid [1, 0, 0, 0, 0, 0]))).1.sessions
        = [(cid, s')] ∧ B ≤ s'.audioQueue.length) := by
  constructor
  · obtain ⟨s', h1, h2⟩ := c4_master cid evs (postInit cid ctrl)
      (initSession ctrl) hok rfl
      (fun w v hv => Option.noConfusion hv)
      (fun w hw => Option.noConfusion hw)
    rw [run_cons, step_init]
    dsimp only
    refine ⟨s', h1, ?_⟩
    rw [relayedFrames_append]
    have hrf : relayedFrames [Act.answerCall ctrl] = [] := rfl
    rw [hrf, List.nil_append]
    simpa using h2
  · intro B
    obtain ⟨s', h1, h2⟩ := queue_pump cid [1, 0, 0, 0, 0, 0] (by decide) B
      (postInit cid ctrl) (initSession ctrl) rfl rfl
    rw [run_cons, step_init]
    dsimp only
    refine ⟨s', h1, ?_⟩
    rw [h2]
    simp [initSession]

theorem relay_order_named_attach_witness :
    (∃ s', (run initState [Event.webhookInitiated 0 7,
        Event.telnyxConnect 5 (some 0), Event.telnyxMessage 5 [9],
        Event.aiAudioDelta 0 [1, 0, 0, 0, 0, 0]]).1.sessions
          = [(0, s')] ∧
      relayedFrames (run initState [Event.webhookInitiated 0 7,
        Event.telnyxConnect 5 (some 0), Event.telnyxMessage 5 [9],
        Event.aiAudioDelta 0 [1, 0, 0, 0, 0, 0]]).2 ++ s'.audioQueue
        = producedFrames 0 [Event.telnyxConnect 5 (some 0),
            Event.telnyxMessage 5 [9],
            Event.aiAudioDelta 0 [1, 0, 0, 0, 0, 0]]) ∧
    (∃ s', (run initState (Event.webhookInitiated 0 7 ::
        List.replicate 3
          (Event.aiAudioDelta 0 [1, 0, 0, 0, 0, 0]))).1.sessions
        = [(0, s')] ∧ 3 ≤ s'.audioQueue.length) := by
  have h := relay_order_named_attach 0 7
    [Event.telnyxConnect 5 (some 0), Event.telnyxMessage 5 [9],
     Event.aiAudioDelta 0 [1, 0, 0, 0, 0, 0]]
    (by
      intro ev hev
      rcases (by simpa using hev :
          ev = Event.telnyxConnect 5 (some 0) ∨
          ev = Event.telnyxMessage 5 [9] ∨
          ev = Event.aiAudioDelta 0 [1, 0, 0, 0, 0, 0])
        with rfl | rfl | rfl
      · exact rfl
      · exact trivial
      · exact trivial)
  exact ⟨h.1, h.2 3⟩
